import Mathlib

/-!
# AnalogFrequency.h: ADC-driven frequency and amplitude estimation

A shallow embedding of `src/AnalogFrequency.h` (TMRh20, 2016) and the
properties of its sampling interrupt and of the read-and-reset `getFreq`.

Machine integers are natural numbers reduced explicitly: `uint32_t` values
modulo `2^32`, the `uint16_t` reading modulo `2^16`.  The globals of the
header form the record `State`; a function that mutates them takes the old
record and gives the new one.  An integer division by zero is the error
result `Fault.divByZero`.
-/

namespace AnalogFrequency

/-! ## Configuration -/

/-- The build-time configuration: the macros `midPoint` and `sensitivity`,
and whether `LOW_HI` is defined. -/
structure Config where
  midPoint : Nat
  sensitivity : Nat
  lowHi : Bool
  deriving DecidableEq, Repr

/-- The header as shipped: `midPoint` 508, `sensitivity` 10, `LOW_HI` left
commented out. -/
def defaultConfig : Config := ⟨508, 10, false⟩

/-- Conversion of an `int` to `unsigned int` on the AVR target (16 bits):
the comparisons of the interrupt have the `uint16_t` `reading` on one side,
so their `int` operand is converted this way. For the documented range
(`midPoint` between 0 and 1023, `sensitivity` below `1023 - midPoint`) the sum
is unchanged by it; the difference is unchanged when `sensitivity ≤ midPoint`
and becomes `65536 + midPoint - sensitivity` otherwise. -/
def toU16 (i : Int) : Nat := (i % 65536).toNat

/-- The value `midPoint+sensitivity` has in `reading >= midPoint+sensitivity`. -/
def upperThreshold (c : Config) : Nat :=
  toU16 ((c.midPoint : Int) + (c.sensitivity : Int))

/-- The value `midPoint -sensitivity` has in `reading <= midPoint -sensitivity`. -/
def lowerThreshold (c : Config) : Nat :=
  toU16 ((c.midPoint : Int) - (c.sensitivity : Int))

/-! ## State -/

/-- The globals of the header: `reading` (`uint16_t`), the two accumulators
`varAvg`/`varCnt` and `ampAvg`/`ampCnt`, and the two time stamps
(`uint32_t`). `dnStartTime` is declared by the header and used nowhere.
A state written as a tuple lists the fields in this order:
`⟨reading, varAvg, varCnt, ampAvg, ampCnt, upStartTime, dnStartTime⟩`. -/
structure State where
  reading : Nat
  varAvg : Nat
  varCnt : Nat
  ampAvg : Nat
  ampCnt : Nat
  upStartTime : Nat
  dnStartTime : Nat
  deriving DecidableEq, Repr

/-- The initial values of the globals: all zero. -/
def State.init : State := ⟨0, 0, 0, 0, 0, 0, 0⟩

/-- The ways an operation can fail to give a result. -/
inductive Fault where
  | divByZero
  deriving DecidableEq, Repr

instance instDecidableEqExcept {ε α : Type} [DecidableEq ε] [DecidableEq α] :
    DecidableEq (Except ε α)
  | .ok a, .ok b =>
    if h : a = b then isTrue (by rw [h]) else isFalse (fun h1 => h (Except.ok.inj h1))
  | .error a, .error b =>
    if h : a = b then isTrue (by rw [h]) else isFalse (fun h1 => h (Except.error.inj h1))
  | .ok _, .error _ => isFalse (fun h => Except.noConfusion h)
  | .error _, .ok _ => isFalse (fun h => Except.noConfusion h)

/-! ## Operations -/

/-- `micros() - upStartTime` on `uint32_t`: subtraction modulo `2^32`. -/
def sub32 (a b : Nat) : Nat := (a % 2 ^ 32 + 2 ^ 32 - b % 2 ^ 32) % 2 ^ 32

/-- `saveFreq(uint32_t uS)`: `varCnt++; varAvg += 1000000/uS;`. -/
def saveFreq (s : State) (uS : Nat) : Except Fault State :=
  if uS % 2 ^ 32 = 0 then .error .divByZero
  else .ok { s with
    varCnt := (s.varCnt + 1) % 2 ^ 32
    varAvg := (s.varAvg + 1000000 / (uS % 2 ^ 32)) % 2 ^ 32 }

/-- `saveAmp(uint16_t amplitude)`: `ampCnt++; ampAvg += amplitude;`. -/
def saveAmp (s : State) (amplitude : Nat) : State :=
  { s with
    ampCnt := (s.ampCnt + 1) % 2 ^ 32
    ampAvg := (s.ampAvg + amplitude % 65536) % 2 ^ 32 }

/-- `fAvailable()`: `varCnt > 0 ? true : false`. -/
def fAvailable (s : State) : Bool := if s.varCnt > 0 then true else false

/-- What one call of `getFreq` hands back: the returned average, the values
written through `amplitude` and `samples`, and the globals afterwards, as a
tuple `⟨avg, amplitude, samples, state⟩`. -/
structure Drained where
  avg : Nat
  amplitude : Nat
  samples : Nat
  state : State
  deriving DecidableEq, Repr

/-- `getFreq(&amplitude, &samples)`, executed with interrupts off and hence
as one step. The statements run in the order of the source: the division by
`varCnt` comes first, then the one by `ampCnt`. The caller supplies both
pointers. -/
def getFreq (s : State) : Except Fault Drained :=
  if s.varCnt = 0 then .error .divByZero
  else
    let avg := s.varAvg / s.varCnt / 2
    if s.ampCnt = 0 then .error .divByZero
    else
      let amplitude := s.ampAvg / s.ampCnt
      let samples := s.varCnt
      .ok ⟨avg, amplitude, samples,
        { s with varAvg := 0, varCnt := 0, ampAvg := 0, ampCnt := 0 }⟩

/-- The open/close logic of `ISR(ADC_vect)`, after `reading` has been
stored: the `#if !defined LOW_HI` block, or the `#else` block when `LOW_HI`
is defined. `now` is what `micros()` returns when the branch calls it. -/
def edgeLogic (c : Config) (s : State) (now : Nat) : Except Fault State :=
  if c.lowHi = false then
    if upperThreshold c ≤ s.reading ∧ s.upStartTime = 0 then
      .ok { s with upStartTime := now % 2 ^ 32 }
    else if s.reading ≤ lowerThreshold c ∧ s.upStartTime > 0 then
      let tim := sub32 now s.upStartTime
      let s1 := { s with upStartTime := 0 }
      if tim > 50 then saveFreq s1 tim else .ok s1
    else .ok s
  else
    if s.reading ≤ lowerThreshold c ∧ s.upStartTime = 0 then
      .ok { s with upStartTime := now % 2 ^ 32 }
    else if upperThreshold c ≤ s.reading ∧ s.upStartTime > 0 then
      let tim := sub32 now s.upStartTime
      let s1 := { s with upStartTime := 0 }
      if tim > 50 then saveFreq s1 tim else .ok s1
    else .ok s

/-- One run of `ISR(ADC_vect)`: `sample` is the conversion result read from
`ADCL`/`ADCH`, `now` the value of `micros()`. -/
def ISR (c : Config) (s : State) (sample now : Nat) : Except Fault State :=
  match edgeLogic c { s with reading := sample % 65536 } now with
  | .error e => .error e
  | .ok s1 => if s1.upStartTime > 0 then .ok (saveAmp s1 s1.reading) else .ok s1

/-! ## Traces -/

/-- The globals after the four resets of `getFreq`. -/
def State.cleared (s : State) : State :=
  { s with varAvg := 0, varCnt := 0, ampAvg := 0, ampCnt := 0 }

/-- The reading is on the side of the band that opens a half-cycle: at or
above the upper threshold, or with `LOW_HI` at or below the lower one. -/
def opensOn (c : Config) (r : Nat) : Prop :=
  if c.lowHi = false then upperThreshold c ≤ r else r ≤ lowerThreshold c

/-- The reading is on the side of the band that closes a half-cycle. -/
def closesOn (c : Config) (r : Nat) : Prop :=
  if c.lowHi = false then r ≤ lowerThreshold c else upperThreshold c ≤ r

instance (c : Config) (r : Nat) : Decidable (opensOn c r) := by
  unfold opensOn; infer_instance

instance (c : Config) (r : Nat) : Decidable (closesOn c r) := by
  unfold closesOn; infer_instance

/-- The invocation of the interrupt on `sample` at `now` closes an open
half-cycle whose duration exceeds 50 microseconds. -/
def records (c : Config) (s : State) (sample now : Nat) : Bool :=
  decide (s.upStartTime > 0 ∧ closesOn c (sample % 65536) ∧
    sub32 now s.upStartTime > 50)

/-- The interrupt run once for each `(sample, now)` of the list, in order. -/
def feed (c : Config) : State → List (Nat × Nat) → Except Fault State
  | s, [] => .ok s
  | s, (x, t) :: xs =>
    match ISR c s x t with
    | .error e => .error e
    | .ok s1 => feed c s1 xs

/-- The list contains an invocation that records a half-cycle, when fed from `s`. -/
def anyRecords (c : Config) : State → List (Nat × Nat) → Bool
  | _, [] => false
  | s, (x, t) :: xs =>
    records c s x t ||
      match ISR c s x t with
      | .error _ => false
      | .ok s1 => anyRecords c s1 xs

/-- `saveFreq` called once for each duration of the list, in order. -/
def saveFreqs : State → List Nat → Except Fault State
  | s, [] => .ok s
  | s, d :: ds =>
    match saveFreq s d with
    | .error e => .error e
    | .ok s1 => saveFreqs s1 ds

/-- The sum `saveFreqs` adds to `varAvg`, before reduction modulo `2^32`. -/
def reciprocalSum (ds : List Nat) : Nat := (ds.map (fun d => 1000000 / d)).sum

/-- What happens to the globals: the interrupt fires with a conversion result
at a clock value, or the main program calls `getFreq`. -/
inductive Event where
  | adc (sample now : Nat)
  | drain
  deriving DecidableEq, Repr

/-- The events executed in order from `s`: the globals at the end and what
each `getFreq` handed back, oldest first. A fault ends the run. -/
def run (c : Config) : State → List Event → Except Fault (State × List Drained)
  | s, [] => .ok (s, [])
  | s, .adc x t :: es =>
    match ISR c s x t with
    | .error e => .error e
    | .ok s1 => run c s1 es
  | s, .drain :: es =>
    match getFreq s with
    | .error e => .error e
    | .ok d =>
      match run c d.state es with
      | .error e => .error e
      | .ok (s2, ds) => .ok (s2, d :: ds)

/-- Every `getFreq` of the trace is called when `fAvailable()` is true. -/
def guarded (c : Config) : State → List Event → Bool
  | _, [] => true
  | s, .adc x t :: es =>
    match ISR c s x t with
    | .error _ => true
    | .ok s1 => guarded c s1 es
  | s, .drain :: es =>
    fAvailable s &&
      match getFreq s with
      | .error _ => true
      | .ok d => guarded c d.state es

/-- The number of interrupt invocations of the trace that close a half-cycle
of more than 50 microseconds. -/
def closures (c : Config) : State → List Event → Nat
  | _, [] => 0
  | s, .adc x t :: es =>
    (if records c s x t then 1 else 0) +
      match ISR c s x t with
      | .error _ => 0
      | .ok s1 => closures c s1 es
  | s, .drain :: es =>
    match getFreq s with
    | .error _ => 0
    | .ok d => closures c d.state es

/-- Two states agree on everything the interrupt and `getFreq` read: the
two accumulators and the Edge State. -/
def sameWindow (s t : State) : Prop :=
  s.varAvg = t.varAvg ∧ s.varCnt = t.varCnt ∧ s.ampAvg = t.ampAvg ∧
    s.ampCnt = t.ampCnt ∧ s.upStartTime = t.upStartTime

/-- The values a caller receives from `getFreq`: the return value and the two
outputs. -/
def Drained.values (d : Drained) : Nat × Nat × Nat := (d.avg, d.amplitude, d.samples)

/-- The values `getFreq` gives after the interrupt has run on each
`(sample, now)` of the list from `s`. -/
def drainAfter (c : Config) (s : State) (xs : List (Nat × Nat)) :
    Except Fault (Nat × Nat × Nat) :=
  match feed c s xs with
  | .error e => .error e
  | .ok s1 =>
    match getFreq s1 with
    | .error e => .error e
    | .ok d => .ok d.values

/-- A trace of `n` identical oscillations without a drain: a sample of 520 at
clock value 1000, then a sample of 495 at clock value 2000. -/
def oscillations (n : Nat) : List Event :=
  (List.replicate n [Event.adc 520 1000, Event.adc 495 2000]).flatten

/-- One full oscillation as the interrupt sees it: the first sample on the
opening side of the band with its clock value, the rest of that run, the first
sample on the closing side with its clock value, and the rest of that run. -/
structure Oscillation where
  first : Nat × Nat
  stay : List (Nat × Nat)
  back : Nat × Nat
  rest : List (Nat × Nat)

/-- The `(sample, now)` pairs of an oscillation, in order. -/
def Oscillation.samples (o : Oscillation) : List (Nat × Nat) :=
  o.first :: o.stay ++ o.back :: o.rest

/-- The first run lies on the opening side only, the second on the closing
side only, the clock is not 0 (modulo `2^32`) at the first sample, and more
than 50 microseconds pass from the first sample to the first sample of the
second run. -/
def Oscillation.valid (c : Config) (o : Oscillation) : Prop :=
  (∀ p ∈ o.first :: o.stay, p.1 < 65536 ∧ opensOn c p.1 ∧ ¬ closesOn c p.1) ∧
    (∀ p ∈ o.back :: o.rest, p.1 < 65536 ∧ closesOn c p.1 ∧ ¬ opensOn c p.1) ∧
    o.first.2 % 2 ^ 32 ≠ 0 ∧ sub32 o.back.2 o.first.2 > 50

/-- The number the Edge State adds to the frequency count in the amplitude
bound: 1 while a half-cycle is open, 0 otherwise. -/
def openCount (s : State) : Nat := if s.upStartTime = 0 then 0 else 1

/-- A clean square wave as the interrupt sees it: for each pair
`(tOpen, tClose)` a sample of 520 at clock value `tOpen`, then a sample of 495
at clock value `tClose`. -/
def squareWave (ts : List (Nat × Nat)) : List (Nat × Nat) :=
  (ts.map (fun p => [(520, p.1), (495, p.2)])).flatten

/-- The durations of the half-cycles the interrupt records when run on the
list from `s`, in order: `micros() - upStartTime` of every invocation that
closes a half-cycle of more than 50 microseconds. -/
def durations (c : Config) : State → List (Nat × Nat) → List Nat
  | _, [] => []
  | s, (x, t) :: xs =>
    (if records c s x t then [sub32 t s.upStartTime] else []) ++
      match ISR c s x t with
      | .error _ => []
      | .ok s1 => durations c s1 xs

/-! ## Basic facts -/

theorem upperThreshold_eq (c : Config) (h : c.midPoint + c.sensitivity < 65536) :
    upperThreshold c = c.midPoint + c.sensitivity := by
  unfold upperThreshold toU16; omega

theorem lowerThreshold_eq (c : Config) (h : c.sensitivity ≤ c.midPoint)
    (hm : c.midPoint < 65536) : lowerThreshold c = c.midPoint - c.sensitivity := by
  unfold lowerThreshold toU16; omega

theorem sub32_lt (a b : Nat) : sub32 a b < 2 ^ 32 :=
  Nat.mod_lt _ (by norm_num)

theorem saveFreq_gated (s : State) (a b : Nat) (h : sub32 a b > 50) :
    saveFreq s (sub32 a b) = .ok { s with
      varCnt := (s.varCnt + 1) % 2 ^ 32
      varAvg := (s.varAvg + 1000000 / sub32 a b) % 2 ^ 32 } := by
  have h1 : sub32 a b % 2 ^ 32 = sub32 a b := Nat.mod_eq_of_lt (sub32_lt a b)
  have h2 : sub32 a b ≠ 0 := by omega
  simp only [saveFreq]
  rw [h1, if_neg h2]

theorem edgeLogic_eq (c : Config) (s : State) (now : Nat) :
    edgeLogic c s now =
      if opensOn c s.reading ∧ s.upStartTime = 0 then
        .ok { s with upStartTime := now % 2 ^ 32 }
      else if closesOn c s.reading ∧ s.upStartTime > 0 then
        if sub32 now s.upStartTime > 50 then
          .ok { s with
            upStartTime := 0
            varCnt := (s.varCnt + 1) % 2 ^ 32
            varAvg := (s.varAvg + 1000000 / sub32 now s.upStartTime) % 2 ^ 32 }
        else .ok { s with upStartTime := 0 }
      else .ok s := by
  unfold edgeLogic opensOn closesOn
  by_cases hc : c.lowHi = false
  · simp only [hc, if_true]
    split_ifs with h1 h2 h3 <;> first | rfl | (rw [saveFreq_gated _ _ _ (by assumption)])
  · simp only [hc, if_false]
    split_ifs with h1 h2 h3 <;> first | rfl | (rw [saveFreq_gated _ _ _ (by assumption)])

/-- The complete effect of one run of the interrupt on the globals. -/
theorem ISR_spec (c : Config) (s : State) (x t : Nat) :
    ∃ s1, ISR c s x t = .ok s1 ∧ s1.reading = x % 65536 ∧
      s1.dnStartTime = s.dnStartTime ∧
      s1.upStartTime =
        (if s.upStartTime = 0 then (if opensOn c (x % 65536) then t % 2 ^ 32 else 0)
         else (if closesOn c (x % 65536) then 0 else s.upStartTime)) ∧
      s1.varCnt = (if records c s x t then (s.varCnt + 1) % 2 ^ 32 else s.varCnt) ∧
      s1.varAvg = (if records c s x t then
          (s.varAvg + 1000000 / sub32 t s.upStartTime) % 2 ^ 32 else s.varAvg) ∧
      s1.ampCnt = (if s1.upStartTime = 0 then s.ampCnt else (s.ampCnt + 1) % 2 ^ 32) ∧
      s1.ampAvg = (if s1.upStartTime = 0 then s.ampAvg
          else (s.ampAvg + x % 65536) % 2 ^ 32) := by
  have hr : x % 65536 % 65536 = x % 65536 := Nat.mod_mod _ _
  unfold ISR records
  rw [edgeLogic_eq]
  by_cases h0 : s.upStartTime = 0
  · by_cases ho : opensOn c (x % 65536)
    · by_cases ht : t % 4294967296 = 0
      · simp [h0, ho, ht, saveAmp]
      · simp [h0, ho, ht, saveAmp, Nat.pos_of_ne_zero ht]
    · simp [h0, ho, saveAmp]
  · have hp : s.upStartTime > 0 := Nat.pos_of_ne_zero h0
    by_cases hcl : closesOn c (x % 65536)
    · by_cases hd : sub32 t s.upStartTime > 50
      · simp [h0, hp, hcl, hd, saveAmp]
      · simp [h0, hp, hcl, hd, saveAmp]
    · simp [h0, hp, hcl, saveAmp]

theorem edgeLogic_total (c : Config) (s : State) (now : Nat) :
    ∃ e, edgeLogic c s now = .ok e ∧ e.reading = s.reading ∧
      e.ampAvg = s.ampAvg ∧ e.ampCnt = s.ampCnt := by
  rw [edgeLogic_eq]
  split_ifs <;> exact ⟨_, rfl, rfl, rfl, rfl⟩

theorem feed_no_records (c : Config) :
    ∀ (xs : List (Nat × Nat)) (s : State), anyRecords c s xs = false →
      ∃ s1, feed c s xs = .ok s1 ∧ s1.varCnt = s.varCnt ∧ s1.varAvg = s.varAvg := by
  intro xs
  induction xs with
  | nil => intro s _; exact ⟨s, rfl, rfl, rfl⟩
  | cons p xs ih =>
    intro s h
    obtain ⟨x, t⟩ := p
    obtain ⟨s1, h1, -, -, -, hcnt, havg, -, -⟩ := ISR_spec c s x t
    simp only [anyRecords, h1, Bool.or_eq_false_iff] at h
    obtain ⟨s2, h2, hc2, ha2⟩ := ih s1 h.2
    rw [h.1] at hcnt havg
    refine ⟨s2, ?_, ?_, ?_⟩
    · simp only [feed, h1]; exact h2
    · rw [hc2]; exact hcnt
    · rw [ha2]; exact havg

theorem saveFreqs_spec :
    ∀ (ds : List Nat) (s : State), s.varAvg < 2 ^ 32 → s.varCnt < 2 ^ 32 →
      (∀ d ∈ ds, 0 < d ∧ d < 2 ^ 32) →
      saveFreqs s ds = .ok { s with
        varCnt := (s.varCnt + ds.length) % 2 ^ 32
        varAvg := (s.varAvg + reciprocalSum ds) % 2 ^ 32 } := by
  intro ds
  induction ds with
  | nil =>
    intro s h1 h2 _
    simp only [saveFreqs, reciprocalSum, List.map_nil, List.sum_nil, List.length_nil,
      Nat.add_zero, Nat.mod_eq_of_lt h1, Nat.mod_eq_of_lt h2]
  | cons d ds ih =>
    intro s h1 h2 hd
    have hd0 := hd d (List.mem_cons_self d ds)
    have hdm : d % 2 ^ 32 = d := Nat.mod_eq_of_lt hd0.2
    have hne : d ≠ 0 := by omega
    have hstep : saveFreq s d = .ok { s with
        varCnt := (s.varCnt + 1) % 2 ^ 32
        varAvg := (s.varAvg + 1000000 / d) % 2 ^ 32 } := by
      simp only [saveFreq]
      rw [hdm, if_neg hne]
    have hrest := ih { s with
        varCnt := (s.varCnt + 1) % 2 ^ 32
        varAvg := (s.varAvg + 1000000 / d) % 2 ^ 32 }
      (Nat.mod_lt _ (by norm_num)) (Nat.mod_lt _ (by norm_num))
      (fun e he => hd e (List.mem_cons_of_mem d he))
    simp only [saveFreqs, hstep, hrest]
    have e1 : ((s.varCnt + 1) % 2 ^ 32 + ds.length) % 2 ^ 32 =
        (s.varCnt + (d :: ds).length) % 2 ^ 32 := by
      simp only [List.length_cons]; omega
    have e2 : ((s.varAvg + 1000000 / d) % 2 ^ 32 + reciprocalSum ds) % 2 ^ 32 =
        (s.varAvg + reciprocalSum (d :: ds)) % 2 ^ 32 := by
      simp only [reciprocalSum, List.map_cons, List.sum_cons]; omega
    simp only [e1, e2]

theorem sub32_mod_right (a b : Nat) : sub32 a (b % 2 ^ 32) = sub32 a b := by
  unfold sub32; rw [Nat.mod_mod]

theorem feed_append (c : Config) :
    ∀ (xs ys : List (Nat × Nat)) (s s1 : State), feed c s xs = .ok s1 →
      feed c s (xs ++ ys) = feed c s1 ys := by
  intro xs
  induction xs with
  | nil =>
    intro ys s s1 h
    simp only [feed, Except.ok.injEq] at h
    rw [List.nil_append, h]
  | cons p xs ih =>
    intro ys s s1 h
    obtain ⟨x, t⟩ := p
    obtain ⟨s2, h2, -⟩ := ISR_spec c s x t
    simp only [feed, h2, List.cons_append] at h ⊢
    exact ih ys s2 s1 h

/-- Samples that do not close the open half-cycle: each is added to the
Amplitude Accumulator, nothing else but `reading` changes. -/
theorem feed_stay_open (c : Config) :
    ∀ (xs : List (Nat × Nat)) (s : State), s.upStartTime ≠ 0 →
      s.ampAvg < 2 ^ 32 → s.ampCnt < 2 ^ 32 →
      (∀ p ∈ xs, p.1 < 65536 ∧ ¬ closesOn c p.1) →
      ∃ s1, feed c s xs = .ok s1 ∧ s1.upStartTime = s.upStartTime ∧
        s1.dnStartTime = s.dnStartTime ∧
        s1.varCnt = s.varCnt ∧ s1.varAvg = s.varAvg ∧
        s1.ampCnt = (s.ampCnt + xs.length) % 2 ^ 32 ∧
        s1.ampAvg = (s.ampAvg + (xs.map Prod.fst).sum) % 2 ^ 32 := by
  intro xs
  induction xs with
  | nil =>
    intro s _ h1 h2 _
    exact ⟨s, rfl, rfl, rfl, rfl, rfl, (Nat.mod_eq_of_lt h2).symm, (Nat.mod_eq_of_lt h1).symm⟩
  | cons p xs ih =>
    intro s h0 _ _ hp
    obtain ⟨x, t⟩ := p
    have hx := hp (x, t) (List.mem_cons_self _ _)
    have hxm : x % 65536 = x := Nat.mod_eq_of_lt hx.1
    obtain ⟨s1, h1, -, hdn, hup, hcnt, havg, hac, haa⟩ := ISR_spec c s x t
    rw [hxm] at hup haa
    rw [if_neg h0, if_neg hx.2] at hup
    have hrec : records c s x t = false := by
      unfold records; rw [hxm]; simp [hx.2]
    rw [hrec] at hcnt havg
    have h10 : s1.upStartTime ≠ 0 := by rw [hup]; exact h0
    rw [if_neg h10] at hac haa
    obtain ⟨s2, h2, hup2, hdn2, hcnt2, havg2, hac2, haa2⟩ := ih s1 h10
      (by rw [haa]; exact Nat.mod_lt _ (by norm_num))
      (by rw [hac]; exact Nat.mod_lt _ (by norm_num))
      (fun q hq => hp q (List.mem_cons_of_mem _ hq))
    refine ⟨s2, ?_, by rw [hup2, hup], by rw [hdn2, hdn], by rw [hcnt2]; exact hcnt,
      by rw [havg2]; exact havg, ?_, ?_⟩
    · simp only [feed, h1]; exact h2
    · rw [hac2, hac, List.length_cons]; omega
    · rw [haa2, haa, List.map_cons, List.sum_cons]; omega

/-- One half-cycle from the zeroed state: `a1` opens it at `t1`, the samples
of `rest` arrive while it is open, `x` closes it at `tc` after more than 50
microseconds. The globals afterwards, field by field. -/
theorem single_half_cycle (c : Config) (a1 t1 x tc : Nat) (rest : List (Nat × Nat))
    (ha1 : a1 < 65536) (hopen : opensOn c a1) (ht1 : t1 % 2 ^ 32 ≠ 0)
    (hrest : ∀ p ∈ rest, p.1 < 65536 ∧ ¬ closesOn c p.1)
    (hx : x < 65536) (hclose : closesOn c x) (hdur : sub32 tc t1 > 50) :
    feed c State.init ((a1, t1) :: rest ++ [(x, tc)]) =
      .ok ⟨x, 1000000 / sub32 tc t1, 1, (a1 + (rest.map Prod.fst).sum) % 2 ^ 32,
        (rest.length + 1) % 2 ^ 32, 0, 0⟩ := by
  have ha1m : a1 % 65536 = a1 := Nat.mod_eq_of_lt ha1
  have hxm : x % 65536 = x := Nat.mod_eq_of_lt hx
  -- the opening invocation
  obtain ⟨s1, h1, -, hdn1, hup1, hcnt1, havg1, hac1, haa1⟩ := ISR_spec c State.init a1 t1
  have hr1 : records c State.init a1 t1 = false := by
    unfold records; simp [State.init]
  rw [ha1m] at hup1 haa1
  simp only [hr1, Bool.false_eq_true, if_false] at hcnt1 havg1
  have hup1' : s1.upStartTime = t1 % 2 ^ 32 := by
    rw [hup1, if_pos (by rfl), if_pos hopen]
  have h10 : s1.upStartTime ≠ 0 := by rw [hup1']; exact ht1
  rw [if_neg h10] at hac1 haa1
  have hac1' : s1.ampCnt = 1 := by rw [hac1]; rfl
  have haa1' : s1.ampAvg = a1 := by
    rw [haa1]; show (0 + a1) % 2 ^ 32 = a1; omega
  -- the samples while it is open
  obtain ⟨s2, h2, hup2, hdn2, hcnt2, havg2, hac2, haa2⟩ := feed_stay_open c rest s1 h10
    (by rw [haa1']; omega) (by rw [hac1']; norm_num) hrest
  -- the closing invocation
  obtain ⟨s3, h3, hrd3, hdn3, hup3, hcnt3, havg3, hac3, haa3⟩ := ISR_spec c s2 x tc
  have h20 : s2.upStartTime ≠ 0 := by rw [hup2]; exact h10
  have hr3 : records c s2 x tc = true := by
    unfold records
    rw [hxm, hup2, hup1', sub32_mod_right]
    simp only [decide_eq_true_eq]
    exact ⟨Nat.pos_of_ne_zero ht1, hclose, hdur⟩
  rw [hxm] at hrd3 hup3
  rw [if_neg h20, if_pos hclose] at hup3
  simp only [hr3, if_true] at hcnt3 havg3
  rw [hcnt2, hcnt1] at hcnt3
  rw [havg2, havg1, hup2, hup1', sub32_mod_right] at havg3
  rw [if_pos hup3, hac2, hac1'] at hac3
  rw [if_pos hup3, haa2, haa1'] at haa3
  have hfeed : feed c State.init ((a1, t1) :: rest ++ [(x, tc)]) = .ok s3 := by
    rw [List.cons_append]
    simp only [feed, h1]
    rw [feed_append c rest [(x, tc)] s1 s2 h2]
    simp only [feed, h3]
  rw [hfeed]
  have hd1 : sub32 tc t1 < 2 ^ 32 := sub32_lt tc t1
  have e1 : s3.varAvg = 1000000 / sub32 tc t1 := by
    rw [havg3]
    show (0 + 1000000 / sub32 tc t1) % 2 ^ 32 = 1000000 / sub32 tc t1
    have hle : 1000000 / sub32 tc t1 ≤ 1000000 := Nat.div_le_self _ _
    rw [Nat.zero_add]
    exact Nat.mod_eq_of_lt (Nat.lt_of_le_of_lt hle (by norm_num))
  have e2 : s3.varCnt = 1 := by rw [hcnt3]; rfl
  have e3 : s3.ampCnt = (rest.length + 1) % 2 ^ 32 := by rw [hac3, Nat.add_comm]
  have e4 : s3.dnStartTime = 0 := by rw [hdn3, hdn2, hdn1]; rfl
  obtain ⟨r, va, vc, aa, ac, up, dn⟩ := s3
  simp only at hrd3 hup3 haa3 e1 e2 e3 e4
  rw [hrd3, hup3, haa3, e1, e2, e3, e4]

theorem run_conservation (c : Config) :
    ∀ (evs : List Event) (s0 s : State) (ds : List Drained), s0.varCnt < 2 ^ 32 →
      run c s0 evs = .ok (s, ds) →
      ∃ w, (ds.map Drained.samples).sum + s.varCnt + 2 ^ 32 * w =
        s0.varCnt + closures c s0 evs := by
  intro evs
  induction evs with
  | nil =>
    intro s0 s ds _ h
    simp only [run, Except.ok.injEq, Prod.mk.injEq] at h
    refine ⟨0, ?_⟩
    rw [← h.1, ← h.2]
    simp [closures]
  | cons ev es ih =>
    intro s0 s ds h0 h
    cases ev with
    | adc x t =>
      obtain ⟨s1, h1, -, -, -, hcnt, -, -, -⟩ := ISR_spec c s0 x t
      simp only [run, h1] at h
      have hlt : s1.varCnt < 2 ^ 32 := by
        rw [hcnt]; split_ifs
        · exact Nat.mod_lt _ (by norm_num)
        · exact h0
      obtain ⟨w, hw⟩ := ih s1 s ds hlt h
      simp only [closures, h1]
      by_cases hr : records c s0 x t = true
      · rw [hr] at hcnt
        simp only [if_true] at hcnt
        simp only [hr, if_true]
        refine ⟨w + (s0.varCnt + 1) / 2 ^ 32, ?_⟩
        omega
      · have hr2 : records c s0 x t = false := by simpa using hr
        rw [hr2] at hcnt
        simp only [Bool.false_eq_true, if_false] at hcnt
        simp only [hr2, Bool.false_eq_true, if_false]
        refine ⟨w, ?_⟩
        omega
    | drain =>
      simp only [run] at h
      cases hg : getFreq s0 with
      | error e => rw [hg] at h; simp at h
      | ok d =>
        rw [hg] at h
        simp only at h
        cases hr : run c d.state es with
        | error e => rw [hr] at h; simp at h
        | ok p =>
          obtain ⟨s2, ds2⟩ := p
          rw [hr] at h
          simp only [Except.ok.injEq, Prod.mk.injEq] at h
          have hd : d.samples = s0.varCnt ∧ d.state.varCnt = 0 := by
            unfold getFreq at hg
            split_ifs at hg with h1 h2
            simp only [Except.ok.injEq] at hg
            rw [← hg]; exact ⟨rfl, rfl⟩
          obtain ⟨w, hw⟩ := ih d.state s2 ds2 (by rw [hd.2]; norm_num) hr
          refine ⟨w, ?_⟩
          simp only [closures, hg]
          rw [← h.1, ← h.2, List.map_cons, List.sum_cons, hd.1]
          rw [hd.2] at hw
          omega

theorem ISR_sameWindow (c : Config) (s t : State) (x now : Nat) (h : sameWindow s t) :
    ∃ s1 t1, ISR c s x now = .ok s1 ∧ ISR c t x now = .ok t1 ∧ sameWindow s1 t1 := by
  obtain ⟨ha, hc, haa, hac, hu⟩ := h
  obtain ⟨s1, h1, -, -, hup1, hcnt1, havg1, hac1, haa1⟩ := ISR_spec c s x now
  obtain ⟨t1, h2, -, -, hup2, hcnt2, havg2, hac2, haa2⟩ := ISR_spec c t x now
  have hrec : records c s x now = records c t x now := by
    unfold records; rw [hu]
  have hup : s1.upStartTime = t1.upStartTime := by rw [hup1, hup2, hu]
  refine ⟨s1, t1, h1, h2, ?_, ?_, ?_, ?_, hup⟩
  · rw [havg1, havg2, hrec, ha, hu]
  · rw [hcnt1, hcnt2, hrec, hc]
  · rw [haa1, haa2, hup, haa]
  · rw [hac1, hac2, hup, hac]

theorem feed_sameWindow (c : Config) :
    ∀ (xs : List (Nat × Nat)) (s t : State), sameWindow s t →
      ∃ s1 t1, feed c s xs = .ok s1 ∧ feed c t xs = .ok t1 ∧ sameWindow s1 t1 := by
  intro xs
  induction xs with
  | nil => intro s t h; exact ⟨s, t, rfl, rfl, h⟩
  | cons p xs ih =>
    intro s t h
    obtain ⟨x, now⟩ := p
    obtain ⟨s1, t1, h1, h2, hw⟩ := ISR_sameWindow c s t x now h
    obtain ⟨s2, t2, h3, h4, hw2⟩ := ih s1 t1 hw
    exact ⟨s2, t2, by simp only [feed, h1]; exact h3, by simp only [feed, h2]; exact h4, hw2⟩

theorem getFreq_sameWindow (s t : State) (h : sameWindow s t) :
    (match getFreq s with | .error e => Except.error e | .ok d => .ok d.values) =
      (match getFreq t with | .error e => Except.error e | .ok d => .ok d.values) := by
  obtain ⟨ha, hc, haa, hac, -⟩ := h
  unfold getFreq
  rw [ha, hc, haa, hac]
  split_ifs <;> rfl

theorem drainAfter_sameWindow (c : Config) (s t : State) (xs : List (Nat × Nat))
    (h : sameWindow s t) : drainAfter c s xs = drainAfter c t xs := by
  obtain ⟨s1, t1, h1, h2, hw⟩ := feed_sameWindow c xs s t h
  unfold drainAfter
  rw [h1, h2]
  exact getFreq_sameWindow s1 t1 hw

theorem getFreq_state (s : State) (d : Drained) (h : getFreq s = .ok d) :
    d.samples = s.varCnt ∧ d.state = s.cleared := by
  unfold getFreq at h
  split_ifs at h with h1 h2
  simp only [Except.ok.injEq] at h
  rw [← h]; exact ⟨rfl, rfl⟩

theorem oscillations_succ (n : Nat) :
    oscillations (n + 1) = Event.adc 520 1000 :: Event.adc 495 2000 :: oscillations n := rfl

theorem run_oscillations :
    ∀ (n : Nat) (s : State), s.upStartTime = 0 → s.varCnt < 2 ^ 32 →
      ∃ s1, run defaultConfig s (oscillations n) = .ok (s1, []) ∧ s1.upStartTime = 0 ∧
        s1.varCnt = (s.varCnt + n) % 2 ^ 32 ∧
        closures defaultConfig s (oscillations n) = n := by
  intro n
  induction n with
  | zero =>
    intro s h0 hc
    exact ⟨s, rfl, h0, (Nat.mod_eq_of_lt hc).symm, rfl⟩
  | succ n ih =>
    intro s h0 hc
    obtain ⟨s1, h1, -, -, hup1, hcnt1, -, -, -⟩ := ISR_spec defaultConfig s 520 1000
    have hr1 : records defaultConfig s 520 1000 = false := by
      unfold records; simp [h0]
    rw [if_pos h0, if_pos (by decide)] at hup1
    simp only [hr1, Bool.false_eq_true, if_false] at hcnt1
    obtain ⟨s2, h2, -, -, hup2, hcnt2, -, -, -⟩ := ISR_spec defaultConfig s1 495 2000
    have hr2 : records defaultConfig s1 495 2000 = true := by
      unfold records; rw [hup1]; decide
    rw [hup1, if_neg (by decide), if_pos (by decide)] at hup2
    simp only [hr2, if_true] at hcnt2
    obtain ⟨s3, h3, hup3, hcnt3, hcl3⟩ := ih s2 hup2
      (by rw [hcnt2]; exact Nat.mod_lt _ (by norm_num))
    have hos := oscillations_succ n
    refine ⟨s3, ?_, hup3, ?_, ?_⟩
    · rw [hos]
      simp only [run, h1, h2]
      exact h3
    · rw [hcnt3, hcnt2, hcnt1]; omega
    · rw [hos]
      simp only [closures, h1, h2, hr1, hr2, hcl3, Bool.false_eq_true, if_false, if_true]
      rw [Nat.zero_add]; exact Nat.add_comm 1 n

theorem run_ok_guarded (c : Config) :
    ∀ (evs : List Event) (s0 s : State) (ds : List Drained),
      run c s0 evs = .ok (s, ds) → guarded c s0 evs = true := by
  intro evs
  induction evs with
  | nil => intro s0 s ds _; rfl
  | cons ev es ih =>
    intro s0 s ds h
    cases ev with
    | adc x t =>
      obtain ⟨s1, h1, -⟩ := ISR_spec c s0 x t
      simp only [run, h1] at h
      simp only [guarded, h1]
      exact ih s1 s ds h
    | drain =>
      simp only [run] at h
      cases hg : getFreq s0 with
      | error e => rw [hg] at h; simp at h
      | ok d =>
        rw [hg] at h
        simp only at h
        cases hr : run c d.state es with
        | error e => rw [hr] at h; simp at h
        | ok p =>
          obtain ⟨s2, ds2⟩ := p
          have hv : s0.varCnt ≠ 0 := by
            intro h0
            simp [getFreq, h0] at hg
          simp only [guarded, hg, Bool.and_eq_true]
          exact ⟨by simp [fAvailable, Nat.pos_of_ne_zero hv], ih d.state s2 ds2 hr⟩

/-- Samples that do not open a half-cycle while none is open change nothing
but `reading`. -/
theorem feed_idle (c : Config) :
    ∀ (xs : List (Nat × Nat)) (s : State), s.upStartTime = 0 →
      (∀ p ∈ xs, p.1 < 65536 ∧ ¬ opensOn c p.1) →
      ∃ s1, feed c s xs = .ok s1 ∧ s1.upStartTime = 0 ∧ s1.varCnt = s.varCnt ∧
        s1.varAvg = s.varAvg ∧ s1.ampCnt = s.ampCnt ∧ s1.ampAvg = s.ampAvg := by
  intro xs
  induction xs with
  | nil => intro s h0 _; exact ⟨s, rfl, h0, rfl, rfl, rfl, rfl⟩
  | cons p xs ih =>
    intro s h0 hp
    obtain ⟨x, t⟩ := p
    have hx := hp (x, t) (List.mem_cons_self _ _)
    have hxm : x % 65536 = x := Nat.mod_eq_of_lt hx.1
    obtain ⟨s1, h1, -, -, hup, hcnt, havg, hac, haa⟩ := ISR_spec c s x t
    rw [hxm] at hup
    rw [if_pos h0, if_neg hx.2] at hup
    have hrec : records c s x t = false := by
      unfold records; simp [h0]
    simp only [hrec, Bool.false_eq_true, if_false] at hcnt havg
    rw [if_pos hup] at hac haa
    obtain ⟨s2, h2, hup2, hcnt2, havg2, hac2, haa2⟩ := ih s1 hup
      (fun q hq => hp q (List.mem_cons_of_mem _ hq))
    refine ⟨s2, ?_, hup2, by rw [hcnt2, hcnt], by rw [havg2, havg], by rw [hac2, hac],
      by rw [haa2, haa]⟩
    simp only [feed, h1]; exact h2

/-- One valid oscillation, fed while no half-cycle is open, is recorded once
and leaves no half-cycle open. -/
theorem feed_oscillation (c : Config) (o : Oscillation) (s : State)
    (h0 : s.upStartTime = 0) (hv : o.valid c) :
    ∃ s1, feed c s o.samples = .ok s1 ∧ s1.upStartTime = 0 ∧
      s1.varCnt = (s.varCnt + 1) % 2 ^ 32 ∧
      s1.varAvg = (s.varAvg + 1000000 / sub32 o.back.2 o.first.2) % 2 ^ 32 := by
  obtain ⟨hhigh, hlow, ht, hdur⟩ := hv
  rcases hfirst : o.first with ⟨a, ta⟩
  rcases hback : o.back with ⟨b, tb⟩
  rw [hfirst] at hhigh ht hdur
  rw [hback] at hlow hdur
  simp only at ht hdur
  have ha := hhigh (a, ta) (List.mem_cons_self _ _)
  have hb := hlow (b, tb) (List.mem_cons_self _ _)
  have ham : a % 65536 = a := Nat.mod_eq_of_lt ha.1
  have hbm : b % 65536 = b := Nat.mod_eq_of_lt hb.1
  -- the opening invocation
  obtain ⟨s1, h1, -, -, hup1, hcnt1, havg1, hac1, haa1⟩ := ISR_spec c s a ta
  rw [ham] at hup1
  rw [if_pos h0, if_pos ha.2.1] at hup1
  have hr1 : records c s a ta = false := by
    unfold records; simp [h0]
  simp only [hr1, Bool.false_eq_true, if_false] at hcnt1 havg1
  have h10 : s1.upStartTime ≠ 0 := by rw [hup1]; exact ht
  rw [if_neg h10] at hac1 haa1
  -- the rest of the first run
  obtain ⟨s2, h2, hup2, -, hcnt2, havg2, -, -⟩ := feed_stay_open c o.stay s1 h10
    (by rw [haa1]; exact Nat.mod_lt _ (by norm_num))
    (by rw [hac1]; exact Nat.mod_lt _ (by norm_num))
    (fun p hp => ⟨(hhigh p (List.mem_cons_of_mem _ hp)).1,
      (hhigh p (List.mem_cons_of_mem _ hp)).2.2⟩)
  -- the closing invocation
  obtain ⟨s3, h3, -, -, hup3, hcnt3, havg3, -, -⟩ := ISR_spec c s2 b tb
  have h20 : s2.upStartTime ≠ 0 := by rw [hup2]; exact h10
  have hr3 : records c s2 b tb = true := by
    unfold records
    rw [hbm, hup2, hup1, sub32_mod_right]
    simp only [decide_eq_true_eq]
    exact ⟨Nat.pos_of_ne_zero ht, hb.2.1, hdur⟩
  rw [hbm] at hup3
  rw [if_neg h20, if_pos hb.2.1] at hup3
  simp only [hr3, if_true] at hcnt3 havg3
  rw [hcnt2, hcnt1] at hcnt3
  rw [havg2, havg1, hup2, hup1, sub32_mod_right] at havg3
  -- the rest of the second run
  obtain ⟨s4, h4, hup4, hcnt4, havg4, -, -⟩ := feed_idle c o.rest s3 hup3
    (fun p hp => ⟨(hlow p (List.mem_cons_of_mem _ hp)).1,
      (hlow p (List.mem_cons_of_mem _ hp)).2.2⟩)
  refine ⟨s4, ?_, hup4, by rw [hcnt4, hcnt3], by rw [havg4, havg3]⟩
  have hfeed3 : feed c s1 (o.stay ++ (b, tb) :: o.rest) = feed c s3 o.rest := by
    rw [feed_append c o.stay _ s1 s2 h2]
    simp only [feed, h3]
  have hs : o.samples = (a, ta) :: (o.stay ++ (b, tb) :: o.rest) := by
    unfold Oscillation.samples; rw [hfirst, hback]; rfl
  rw [hs]
  simp only [feed, h1]
  rw [hfeed3]
  exact h4

/-- Hysteresis: any number of valid oscillations, fed from a state with no
half-cycle open, is recorded one by one; the 32-bit frequency count goes up by
their number. -/
theorem oscillations_recorded (c : Config) :
    ∀ (os : List Oscillation) (s : State), s.upStartTime = 0 → s.varCnt < 2 ^ 32 →
      (∀ o ∈ os, o.valid c) →
      ∃ s1, feed c s (os.map Oscillation.samples).flatten = .ok s1 ∧
        s1.upStartTime = 0 ∧ s1.varCnt = (s.varCnt + os.length) % 2 ^ 32 := by
  intro os
  induction os with
  | nil =>
    intro s h0 hc _
    exact ⟨s, rfl, h0, (Nat.mod_eq_of_lt hc).symm⟩
  | cons o os ih =>
    intro s h0 _ hv
    obtain ⟨s1, h1, hup1, hcnt1, -⟩ :=
      feed_oscillation c o s h0 (hv o (List.mem_cons_self _ _))
    obtain ⟨s2, h2, hup2, hcnt2⟩ := ih s1 hup1
      (by rw [hcnt1]; exact Nat.mod_lt _ (by norm_num))
      (fun q hq => hv q (List.mem_cons_of_mem _ hq))
    refine ⟨s2, ?_, hup2, ?_⟩
    · rw [List.map_cons, List.flatten_cons, feed_append c _ _ s s1 h1]
      exact h2
    · rw [hcnt2, hcnt1, List.length_cons]; omega

/-- Rising-detect, no half-cycle open, a sample at or above the upper
threshold, and a clock value that is not 0: the half-cycle opens with the
Edge State equal to the clock value, and the Frequency Accumulator is
unchanged. -/
theorem ISR_opens (c : Config) (s : State) (sample now : Nat) (hc : c.lowHi = false)
    (h0 : s.upStartTime = 0) (hup : upperThreshold c ≤ sample) (hs : sample < 65536)
    (hn : now < 2 ^ 32) (hnz : now ≠ 0) :
    ∃ s1, ISR c s sample now = .ok s1 ∧ s1.upStartTime = now ∧ s1.upStartTime ≠ 0 ∧
      s1.varAvg = s.varAvg ∧ s1.varCnt = s.varCnt := by
  have hx : sample % 65536 = sample := Nat.mod_eq_of_lt hs
  have hopen : opensOn c (sample % 65536) := by
    unfold opensOn; rw [if_pos hc, hx]; exact hup
  obtain ⟨s1, h1, -, -, hu, hcnt, havg, -, -⟩ := ISR_spec c s sample now
  have hrec : records c s sample now = false := by
    unfold records; simp [h0]
  simp only [hrec, Bool.false_eq_true, if_false] at hcnt havg
  rw [if_pos h0, if_pos hopen, Nat.mod_eq_of_lt hn] at hu
  exact ⟨s1, h1, hu, by rw [hu]; exact hnz, havg, hcnt⟩

/-- A reading strictly inside the band is on neither side of it, whatever
the polarity. -/
theorem inBand_neither (c : Config) (r : Nat) (h1 : lowerThreshold c < r)
    (h2 : r < upperThreshold c) : ¬ opensOn c r ∧ ¬ closesOn c r := by
  unfold opensOn closesOn
  by_cases hc : c.lowHi = false
  · rw [if_pos hc, if_pos hc]; omega
  · rw [if_neg hc, if_neg hc]; omega

theorem upperThreshold_lt (c : Config) : upperThreshold c < 65536 := by
  unfold upperThreshold toU16; omega

theorem lowerThreshold_lt (c : Config) : lowerThreshold c < 65536 := by
  unfold lowerThreshold toU16; omega

/-- One in-band sample leaves the Edge State and the Frequency Accumulator
as they were. -/
theorem ISR_inBand (c : Config) (s : State) (sample now : Nat)
    (h1 : lowerThreshold c < sample) (h2 : sample < upperThreshold c) :
    ∃ s1, ISR c s sample now = .ok s1 ∧ s1.upStartTime = s.upStartTime ∧
      s1.varAvg = s.varAvg ∧ s1.varCnt = s.varCnt := by
  have hs : sample < 65536 := Nat.lt_trans h2 (upperThreshold_lt c)
  have hx : sample % 65536 = sample := Nat.mod_eq_of_lt hs
  obtain ⟨hno, hnc⟩ := inBand_neither c sample h1 h2
  obtain ⟨s1, h, -, -, hu, hcnt, havg, -, -⟩ := ISR_spec c s sample now
  have hrec : records c s sample now = false := by
    unfold records; rw [hx]; simp [hnc]
  simp only [hrec, Bool.false_eq_true, if_false] at hcnt havg
  rw [hx, if_neg hno, if_neg hnc] at hu
  refine ⟨s1, h, ?_, havg, hcnt⟩
  rw [hu]; split_ifs with h0
  · exact h0.symm
  · rfl

theorem feed_inBand (c : Config) :
    ∀ (xs : List (Nat × Nat)) (s : State),
      (∀ p ∈ xs, lowerThreshold c < p.1 ∧ p.1 < upperThreshold c) →
      ∃ s1, feed c s xs = .ok s1 ∧ s1.upStartTime = s.upStartTime ∧
        s1.varAvg = s.varAvg ∧ s1.varCnt = s.varCnt := by
  intro xs
  induction xs with
  | nil => intro s _; exact ⟨s, rfl, rfl, rfl, rfl⟩
  | cons p xs ih =>
    intro s hp
    obtain ⟨x, t⟩ := p
    have hx := hp (x, t) (List.mem_cons_self _ _)
    obtain ⟨s1, h1, hu1, ha1, hc1⟩ := ISR_inBand c s x t hx.1 hx.2
    obtain ⟨s2, h2, hu2, ha2, hc2⟩ := ih s1 (fun q hq => hp q (List.mem_cons_of_mem _ hq))
    refine ⟨s2, ?_, by rw [hu2, hu1], by rw [ha2, ha1], by rw [hc2, hc1]⟩
    simp only [feed, h1]; exact h2

theorem sub32_wrap (start e : Nat) (hs : start < 2 ^ 32) (he : e < 2 ^ 32) :
    sub32 ((start + e) % 2 ^ 32) start = e := by
  unfold sub32; omega

/-- The Edge State changes only at a crossing: it leaves 0 only on a reading
on the opening side, returns to 0 only on a reading on the closing side, and
is otherwise kept. -/
theorem ISR_edge_changes (c : Config) (s : State) (x t : Nat) :
    ∃ s1, ISR c s x t = .ok s1 ∧
      (s.upStartTime = 0 → s1.upStartTime ≠ 0 → opensOn c (x % 65536)) ∧
      (s.upStartTime ≠ 0 → s1.upStartTime = 0 → closesOn c (x % 65536)) ∧
      (s.upStartTime ≠ 0 → s1.upStartTime ≠ 0 → s1.upStartTime = s.upStartTime) := by
  obtain ⟨s1, h1, -, -, hu, -⟩ := ISR_spec c s x t
  refine ⟨s1, h1, ?_, ?_, ?_⟩
  · intro h0 hne
    rw [if_pos h0] at hu
    by_contra hno
    rw [if_neg hno] at hu
    exact hne hu
  · intro h0 hz
    rw [if_neg h0] at hu
    by_contra hnc
    rw [if_neg hnc] at hu
    exact h0 (hu ▸ hz)
  · intro h0 hne
    rw [if_neg h0] at hu
    by_cases hcl : closesOn c (x % 65536)
    · rw [if_pos hcl] at hu; exact absurd hu hne
    · rw [if_neg hcl] at hu; exact hu

/-- One run of the interrupt keeps `varCnt + openCount ≤ ampCnt`, as long as
the amplitude count has room for one more sample. -/
theorem ISR_window_bound (c : Config) (s : State) (x t n : Nat)
    (hn : s.ampCnt ≤ n) (hroom : n + 1 < 2 ^ 32)
    (hinv : s.varCnt + openCount s ≤ s.ampCnt) :
    ∃ s1, ISR c s x t = .ok s1 ∧ s1.ampCnt ≤ n + 1 ∧
      s1.varCnt + openCount s1 ≤ s1.ampCnt := by
  obtain ⟨s1, h1, -, -, hu, hcnt, -, hac, -⟩ := ISR_spec c s x t
  refine ⟨s1, h1, ?_, ?_⟩
  · rw [hac]; split_ifs <;> omega
  · unfold openCount at hinv ⊢
    by_cases h0 : s.upStartTime = 0
    · -- no half-cycle open before: nothing is recorded
      have hrec : records c s x t = false := by
        unfold records; simp [h0]
      simp only [hrec, Bool.false_eq_true, if_false] at hcnt
      rw [if_pos h0] at hinv
      rw [hac, hcnt]
      split_ifs <;> omega
    · rw [if_neg h0] at hinv hu
      by_cases hcl : closesOn c (x % 65536)
      · -- the half-cycle closes: at most one record, no amplitude sample
        rw [if_pos hcl] at hu
        rw [hac, if_pos hu, if_pos hu, hcnt]
        split_ifs <;> omega
      · -- the half-cycle stays open: one amplitude sample, no record
        rw [if_neg hcl] at hu
        have h10 : s1.upStartTime ≠ 0 := by rw [hu]; exact h0
        have hrec : records c s x t = false := by
          unfold records; simp [hcl]
        simp only [hrec, Bool.false_eq_true, if_false] at hcnt
        rw [hac, if_neg h10, if_neg h10, hcnt]
        omega

theorem feed_window_bound (c : Config) :
    ∀ (xs : List (Nat × Nat)) (s : State) (n : Nat), s.ampCnt ≤ n →
      n + xs.length < 2 ^ 32 → s.varCnt + openCount s ≤ s.ampCnt →
      ∃ s1, feed c s xs = .ok s1 ∧ s1.ampCnt ≤ n + xs.length ∧
        s1.varCnt + openCount s1 ≤ s1.ampCnt := by
  intro xs
  induction xs with
  | nil => intro s n hn _ hinv; exact ⟨s, rfl, hn, hinv⟩
  | cons p xs ih =>
    intro s n hn hroom hinv
    obtain ⟨x, t⟩ := p
    rw [List.length_cons] at hroom
    obtain ⟨s1, h1, hn1, hinv1⟩ := ISR_window_bound c s x t n hn (by omega) hinv
    obtain ⟨s2, h2, hn2, hinv2⟩ := ih s1 (n + 1) hn1 (by omega) hinv1
    refine ⟨s2, ?_, ?_, hinv2⟩
    · simp only [feed, h1]; exact h2
    · rw [List.length_cons]; omega

/-- With the band inside the range of the reading, a sample is on the opening
(closing) side under `LOW_HI` exactly when its mirror image about `midPoint`
is on the opening (closing) side under rising-detect. -/
theorem mirror_sides (c : Config) (x : Nat) (hband : c.sensitivity ≤ c.midPoint)
    (hm : 2 * c.midPoint < 65536) (hx : x ≤ 2 * c.midPoint) :
    (opensOn { c with lowHi := true } x ↔
        opensOn { c with lowHi := false } (2 * c.midPoint - x)) ∧
      (closesOn { c with lowHi := true } x ↔
        closesOn { c with lowHi := false } (2 * c.midPoint - x)) := by
  have hu : upperThreshold c = c.midPoint + c.sensitivity :=
    upperThreshold_eq c (by omega)
  have hl : lowerThreshold c = c.midPoint - c.sensitivity :=
    lowerThreshold_eq c hband (by omega)
  have hu1 : upperThreshold { c with lowHi := true } = upperThreshold c := rfl
  have hu2 : upperThreshold { c with lowHi := false } = upperThreshold c := rfl
  have hl1 : lowerThreshold { c with lowHi := true } = lowerThreshold c := rfl
  have hl2 : lowerThreshold { c with lowHi := false } = lowerThreshold c := rfl
  unfold opensOn closesOn
  simp only [Bool.true_eq_false, if_false, if_true, hu1, hu2, hl1, hl2, hu, hl]
  constructor <;> constructor <;> intro h <;> omega

theorem reciprocalSum_cons (d : Nat) (ds : List Nat) :
    reciprocalSum (d :: ds) = 1000000 / d + reciprocalSum ds := by
  simp only [reciprocalSum, List.map_cons, List.sum_cons]

theorem reciprocalSum_append (xs ys : List Nat) :
    reciprocalSum (xs ++ ys) = reciprocalSum xs + reciprocalSum ys := by
  simp only [reciprocalSum, List.map_append, List.sum_append]

theorem reciprocalSum_replicate (n d : Nat) :
    reciprocalSum (List.replicate n d) = n * (1000000 / d) := by
  unfold reciprocalSum
  rw [List.map_replicate, List.sum_replicate, smul_eq_mul]

/-- What the interrupt does to the Frequency Accumulator over a run is what
`saveFreq` does on the durations it records; each of them is above 50. -/
theorem feed_durations (c : Config) :
    ∀ (xs : List (Nat × Nat)) (s : State), s.varAvg < 2 ^ 32 → s.varCnt < 2 ^ 32 →
      ∃ s1, feed c s xs = .ok s1 ∧
        s1.varCnt = (s.varCnt + (durations c s xs).length) % 2 ^ 32 ∧
        s1.varAvg = (s.varAvg + reciprocalSum (durations c s xs)) % 2 ^ 32 ∧
        ∀ d ∈ durations c s xs, 50 < d ∧ d < 2 ^ 32 := by
  intro xs
  induction xs with
  | nil =>
    intro s ha hc
    refine ⟨s, rfl, ?_, ?_, ?_⟩
    · simp only [durations, List.length_nil, Nat.add_zero]
      exact (Nat.mod_eq_of_lt hc).symm
    · simp only [durations, reciprocalSum, List.map_nil, List.sum_nil, Nat.add_zero]
      exact (Nat.mod_eq_of_lt ha).symm
    · intro d hd; simp [durations] at hd
  | cons p xs ih =>
    intro s ha hc
    obtain ⟨x, t⟩ := p
    obtain ⟨s1, h1, -, -, -, hcnt, havg, -, -⟩ := ISR_spec c s x t
    by_cases hr : records c s x t = true
    · simp only [hr, if_true] at hcnt havg
      obtain ⟨s2, h2, hc2, ha2, hd2⟩ := ih s1
        (by rw [havg]; exact Nat.mod_lt _ (by norm_num))
        (by rw [hcnt]; exact Nat.mod_lt _ (by norm_num))
      have hdur : durations c s ((x, t) :: xs) =
          sub32 t s.upStartTime :: durations c s1 xs := by
        simp only [durations, hr, if_true, h1, List.singleton_append]
      have hgt : sub32 t s.upStartTime > 50 := by
        unfold records at hr
        simp only [decide_eq_true_eq] at hr
        exact hr.2.2
      refine ⟨s2, ?_, ?_, ?_, ?_⟩
      · simp only [feed, h1]; exact h2
      · rw [hc2, hcnt, hdur, List.length_cons]; omega
      · rw [ha2, havg, hdur, reciprocalSum_cons]; omega
      · intro d hd
        rw [hdur, List.mem_cons] at hd
        rcases hd with hd | hd
        · rw [hd]; exact ⟨hgt, sub32_lt _ _⟩
        · exact hd2 d hd
    · have hr2 : records c s x t = false := by simpa using hr
      simp only [hr2, Bool.false_eq_true, if_false] at hcnt havg
      obtain ⟨s2, h2, hc2, ha2, hd2⟩ := ih s1 (by rw [havg]; exact ha)
        (by rw [hcnt]; exact hc)
      have hdur : durations c s ((x, t) :: xs) = durations c s1 xs := by
        simp only [durations, hr2, Bool.false_eq_true, if_false, h1, List.nil_append]
      refine ⟨s2, ?_, ?_, ?_, ?_⟩
      · simp only [feed, h1]; exact h2
      · rw [hc2, hcnt, hdur]
      · rw [ha2, havg, hdur]
      · intro d hd
        rw [hdur] at hd
        exact hd2 d hd

/-- A term the interrupt adds to the frequency sum: at most 19607, and 0
exactly for durations above one second. -/
theorem reciprocal_bounds (d : Nat) (hd : 50 < d) :
    1000000 / d ≤ 19607 ∧ (1000000 / d = 0 ↔ d > 1000000) := by
  constructor
  · exact Nat.div_le_div_left (show 51 ≤ d from hd) (by norm_num)
  · rw [Nat.div_eq_zero_iff (by omega : 0 < d)]

theorem reciprocalSum_le (ds : List Nat) (h : ∀ d ∈ ds, 50 < d) :
    reciprocalSum ds ≤ 19607 * ds.length := by
  induction ds with
  | nil => simp [reciprocalSum]
  | cons d ds ih =>
    have h1 := (reciprocal_bounds d (h d (List.mem_cons_self _ _))).1
    have h2 := ih (fun e he => h e (List.mem_cons_of_mem _ he))
    rw [reciprocalSum_cons, List.length_cons]
    omega

theorem squareWave_cons (p : Nat × Nat) (ts : List (Nat × Nat)) :
    squareWave (p :: ts) = (520, p.1) :: (495, p.2) :: squareWave ts := rfl

/-- A square wave fed while no half-cycle is open, each half-cycle opening at
a nonzero clock value and lasting more than 50 microseconds: every half-cycle
is recorded with its duration and contributes one amplitude sample of 520. -/
theorem feed_squareWave :
    ∀ (ts : List (Nat × Nat)) (s : State), s.upStartTime = 0 →
      s.ampAvg < 2 ^ 32 → s.ampCnt < 2 ^ 32 →
      (∀ p ∈ ts, p.1 % 2 ^ 32 ≠ 0 ∧ sub32 p.2 p.1 > 50) →
      ∃ s1, feed defaultConfig s (squareWave ts) = .ok s1 ∧ s1.upStartTime = 0 ∧
        s1.ampCnt = (s.ampCnt + ts.length) % 2 ^ 32 ∧
        s1.ampAvg = (s.ampAvg + 520 * ts.length) % 2 ^ 32 ∧
        durations defaultConfig s (squareWave ts) = ts.map (fun p => sub32 p.2 p.1) := by
  intro ts
  induction ts with
  | nil =>
    intro s h0 ha hc _
    exact ⟨s, rfl, h0, (Nat.mod_eq_of_lt hc).symm, (Nat.mod_eq_of_lt ha).symm, rfl⟩
  | cons p ts ih =>
    intro s h0 ha hc hp
    obtain ⟨hnz, hdur⟩ := hp p (List.mem_cons_self _ _)
    -- the sample of 520 opens the half-cycle
    obtain ⟨s1, h1, -, -, hup1, -, -, hac1, haa1⟩ := ISR_spec defaultConfig s 520 p.1
    have hr1 : records defaultConfig s 520 p.1 = false := by
      unfold records; simp [h0]
    rw [if_pos h0, if_pos (by decide)] at hup1
    have h10 : s1.upStartTime ≠ 0 := by rw [hup1]; exact hnz
    rw [if_neg h10] at hac1 haa1
    -- the sample of 495 closes it
    obtain ⟨s2, h2, -, -, hup2, -, -, hac2, haa2⟩ := ISR_spec defaultConfig s1 495 p.2
    have hr2 : records defaultConfig s1 495 p.2 = true := by
      unfold records
      rw [hup1, sub32_mod_right]
      simp only [decide_eq_true_eq]
      exact ⟨Nat.pos_of_ne_zero hnz, by decide, hdur⟩
    rw [if_neg h10, if_pos (by decide)] at hup2
    rw [if_pos hup2] at hac2 haa2
    obtain ⟨s3, h3, hup3, hac3, haa3, hd3⟩ := ih s2 hup2
      (by rw [haa2, haa1]; exact Nat.mod_lt _ (by norm_num))
      (by rw [hac2, hac1]; exact Nat.mod_lt _ (by norm_num))
      (fun q hq => hp q (List.mem_cons_of_mem _ hq))
    refine ⟨s3, ?_, hup3, ?_, ?_, ?_⟩
    · rw [squareWave_cons]
      simp only [feed, h1, h2]
      exact h3
    · rw [hac3, hac2, hac1, List.length_cons]; omega
    · rw [haa3, haa2, haa1, List.length_cons]; omega
    · rw [squareWave_cons]
      simp only [durations, hr1, hr2, h1, h2, hd3, Bool.false_eq_true, if_false, if_true,
        List.nil_append, List.singleton_append, List.map_cons]
      rw [hup1, sub32_mod_right]

theorem sub32_add (a e : Nat) (h : a + e < 2 ^ 32) : sub32 (a + e) a = e := by
  unfold sub32; omega

/-! ## The claims -/

theorem getFreq_ok (s : State) (hv : s.varCnt ≠ 0) (ha : s.ampCnt ≠ 0) :
    getFreq s =
      .ok ⟨s.varAvg / s.varCnt / 2, s.ampAvg / s.ampCnt, s.varCnt, s.cleared⟩ := by
  simp [getFreq, hv, ha, State.cleared]

/-- C1: with `varCnt > 0` and `ampCnt > 0`, `getFreq` returns
`(varAvg / varCnt) / 2`, writes `ampAvg / ampCnt` to the amplitude output and
the value `varCnt` had before the reset to the samples output. -/
theorem getFreq_returns (s : State) (hv : s.varCnt > 0) (ha : s.ampCnt > 0) :
    ∃ d, getFreq s = .ok d ∧ d.avg = (s.varAvg / s.varCnt) / 2 ∧
      d.amplitude = s.ampAvg / s.ampCnt ∧ d.samples = s.varCnt :=
  ⟨_, getFreq_ok s (Nat.pos_iff_ne_zero.mp hv) (Nat.pos_iff_ne_zero.mp ha), rfl, rfl, rfl⟩

theorem getFreq_returns_witness :
    (⟨7, 30000, 3, 1560, 3, 0, 0⟩ : State).varCnt > 0 ∧
    (⟨7, 30000, 3, 1560, 3, 0, 0⟩ : State).ampCnt > 0 ∧
    ∃ d, getFreq ⟨7, 30000, 3, 1560, 3, 0, 0⟩ = .ok d ∧ d.avg = (30000 / 3) / 2 ∧
      d.amplitude = 1560 / 3 ∧ d.samples = 3 :=
  ⟨by decide, by decide, getFreq_returns ⟨7, 30000, 3, 1560, 3, 0, 0⟩ (by decide) (by decide)⟩

/-- C2 (the code at the failing trace): a half-cycle is recorded, the next one
opens, `getFreq` is called with `fAvailable()` true and clears the amplitude
count while the half-cycle stays open, and the closing sample then records a
half-cycle without an amplitude sample. The state reached has `varCnt = 1` and
`ampCnt = 0`: `fAvailable()` is true and `getFreq` divides by zero. -/
theorem guarded_drain_divides_by_zero :
    guarded defaultConfig State.init
        [.adc 520 100, .adc 495 200, .adc 520 300, .drain, .adc 495 400, .drain] = true ∧
      run defaultConfig State.init
        [.adc 520 100, .adc 495 200, .adc 520 300, .drain, .adc 495 400] =
          .ok (⟨495, 10000, 1, 0, 0, 0, 0⟩, [⟨5000, 520, 1, ⟨520, 0, 0, 0, 0, 300, 0⟩⟩]) ∧
      fAvailable ⟨495, 10000, 1, 0, 0, 0, 0⟩ = true ∧
      getFreq ⟨495, 10000, 1, 0, 0, 0, 0⟩ = .error .divByZero ∧
      run defaultConfig State.init
        [.adc 520 100, .adc 495 200, .adc 520 300, .drain, .adc 495 400, .drain] =
          .error .divByZero :=
  ⟨by decide, by decide, by decide, by decide, by decide⟩

/-- C3: rising-detect, a half-cycle open, a sample at or below
`midPoint - sensitivity` at clock value `now`, with
`duration = (now - upStartTime) mod 2^32`. The interrupt returns; the Edge
State is reset to 0; if `duration ≤ 50` the frequency sum and count are
unchanged; if `duration > 50` the count is increased by 1 and the sum by
`1000000 / duration`, both as `uint32_t`, that is modulo `2^32`. -/
theorem debounce_gate (c : Config) (s : State) (sample now : Nat)
    (hc : c.lowHi = false) (hopen : s.upStartTime ≠ 0)
    (hlow : sample ≤ lowerThreshold c) :
    ∃ s1, ISR c s sample now = .ok s1 ∧ s1.upStartTime = 0 ∧
      (sub32 now s.upStartTime ≤ 50 → s1.varAvg = s.varAvg ∧ s1.varCnt = s.varCnt) ∧
      (sub32 now s.upStartTime > 50 →
        s1.varCnt = (s.varCnt + 1) % 2 ^ 32 ∧
        s1.varAvg = (s.varAvg + 1000000 / sub32 now s.upStartTime) % 2 ^ 32) := by
  have hlt : lowerThreshold c < 65536 := by
    unfold lowerThreshold toU16; omega
  have hx : sample % 65536 = sample := Nat.mod_eq_of_lt (by omega)
  have hcl : closesOn c (sample % 65536) := by
    unfold closesOn; rw [if_pos hc, hx]; exact hlow
  have hp : s.upStartTime > 0 := Nat.pos_of_ne_zero hopen
  obtain ⟨s1, h1, -, -, hup, hcnt, havg, -, -⟩ := ISR_spec c s sample now
  refine ⟨s1, h1, ?_, ?_, ?_⟩
  · rw [hup, if_neg hopen, if_pos hcl]
  · intro hd
    have hrec : records c s sample now = false := by
      unfold records; simp [hd]
    rw [hrec] at hcnt havg
    exact ⟨havg, hcnt⟩
  · intro hd
    have hrec : records c s sample now = true := by
      unfold records; simp [hd, hp, hcl]
    rw [hrec] at hcnt havg
    exact ⟨hcnt, havg⟩

theorem debounce_gate_witness :
    defaultConfig.lowHi = false ∧ (⟨0, 0, 0, 520, 1, 100, 0⟩ : State).upStartTime ≠ 0 ∧
      495 ≤ lowerThreshold defaultConfig ∧
      ∃ s1, ISR defaultConfig ⟨0, 0, 0, 520, 1, 100, 0⟩ 495 600 = .ok s1 ∧
        s1.upStartTime = 0 ∧
        (sub32 600 (⟨0, 0, 0, 520, 1, 100, 0⟩ : State).upStartTime ≤ 50 →
          s1.varAvg = (⟨0, 0, 0, 520, 1, 100, 0⟩ : State).varAvg ∧
          s1.varCnt = (⟨0, 0, 0, 520, 1, 100, 0⟩ : State).varCnt) ∧
        (sub32 600 (⟨0, 0, 0, 520, 1, 100, 0⟩ : State).upStartTime > 50 →
          s1.varCnt = ((⟨0, 0, 0, 520, 1, 100, 0⟩ : State).varCnt + 1) % 2 ^ 32 ∧
          s1.varAvg = ((⟨0, 0, 0, 520, 1, 100, 0⟩ : State).varAvg +
            1000000 / sub32 600 (⟨0, 0, 0, 520, 1, 100, 0⟩ : State).upStartTime) % 2 ^ 32) :=
  ⟨by decide, by decide, by decide,
    debounce_gate defaultConfig ⟨0, 0, 0, 520, 1, 100, 0⟩ 495 600 (by decide) (by decide)
      (by decide)⟩

/-- C4, as amended: durations `d_1..d_N` (`N ≥ 1`, each above 50 and a
`uint32_t`) recorded by `saveFreq` into an empty Frequency Accumulator, with
an amplitude sample present, and then `getFreq`: when the sum of the
`1000000 / d_i` and `N` are both below `2^32`, the returned average is
`((Σ 1000000 / d_i) / N) / 2`, the divisions truncating and in that order. -/
theorem averaging (s : State) (ds : List Nat)
    (hempty : s.varAvg = 0 ∧ s.varCnt = 0) (hamp : s.ampCnt > 0) (hne : ds ≠ [])
    (hd : ∀ d ∈ ds, 50 < d ∧ d < 2 ^ 32)
    (hsum : reciprocalSum ds < 2 ^ 32) (hlen : ds.length < 2 ^ 32) :
    ∃ s1 r, saveFreqs s ds = .ok s1 ∧ getFreq s1 = .ok r ∧
      r.avg = ((ds.map (fun d => 1000000 / d)).sum / ds.length) / 2 := by
  have h := saveFreqs_spec ds s (by rw [hempty.1]; norm_num) (by rw [hempty.2]; norm_num)
    (fun d hm => ⟨by have := (hd d hm).1; omega, (hd d hm).2⟩)
  rw [hempty.1, hempty.2, Nat.zero_add, Nat.zero_add, Nat.mod_eq_of_lt hsum,
    Nat.mod_eq_of_lt hlen] at h
  have hl : ds.length ≠ 0 := fun h0 => hne (List.length_eq_zero.mp h0)
  refine ⟨_, _, h, getFreq_ok _ hl (Nat.pos_iff_ne_zero.mp hamp), rfl⟩

theorem averaging_witness :
    ((⟨0, 0, 0, 520, 1, 0, 0⟩ : State).varAvg = 0 ∧
        (⟨0, 0, 0, 520, 1, 0, 0⟩ : State).varCnt = 0) ∧
      (⟨0, 0, 0, 520, 1, 0, 0⟩ : State).ampCnt > 0 ∧ [500, 250, 51] ≠ [] ∧
      (∀ d ∈ [500, 250, 51], 50 < d ∧ d < 2 ^ 32) ∧
      reciprocalSum [500, 250, 51] < 2 ^ 32 ∧ [500, 250, 51].length < 2 ^ 32 ∧
      ∃ s1 r, saveFreqs ⟨0, 0, 0, 520, 1, 0, 0⟩ [500, 250, 51] = .ok s1 ∧
        getFreq s1 = .ok r ∧
        r.avg = (([500, 250, 51].map (fun d => 1000000 / d)).sum / [500, 250, 51].length) / 2 :=
  ⟨by decide, by decide, by decide, by decide, by decide, by decide,
    averaging ⟨0, 0, 0, 520, 1, 0, 0⟩ [500, 250, 51] (by decide) (by decide) (by decide)
      (by decide) (by decide) (by decide)⟩

/-- C4 as stated fails once a 32-bit accumulator wraps. The sum: 219053
half-cycles of 51 microseconds add 219053 * 19607 = 4294972171, which exceeds
`2^32` by 4875; `getFreq` then returns `(4875 / 219053) / 2 = 0`, while the
formula of the claim gives `(4294972171 / 219053) / 2 = 9803`. The count:
after `2^32` half-cycles of 1000001 microseconds (each adds 0 to the sum)
`varCnt` is back at 0 and `getFreq` divides by zero. -/
theorem averaging_wraps :
    ((∀ d ∈ List.replicate 219053 51, 50 < d ∧ d < 2 ^ 32) ∧
      saveFreqs ⟨0, 0, 0, 520, 1, 0, 0⟩ (List.replicate 219053 51) =
        .ok ⟨0, 4875, 219053, 520, 1, 0, 0⟩ ∧
      getFreq ⟨0, 4875, 219053, 520, 1, 0, 0⟩ = .ok ⟨0, 520, 219053, ⟨0, 0, 0, 0, 0, 0, 0⟩⟩ ∧
      (((List.replicate 219053 51).map (fun d => 1000000 / d)).sum /
        (List.replicate 219053 51).length) / 2 = 9803) ∧
    ((∀ d ∈ List.replicate 4294967296 1000001, 50 < d ∧ d < 2 ^ 32) ∧
      reciprocalSum (List.replicate 4294967296 1000001) = 0 ∧
      saveFreqs ⟨0, 0, 0, 520, 1, 0, 0⟩ (List.replicate 4294967296 1000001) =
        .ok ⟨0, 0, 0, 520, 1, 0, 0⟩ ∧
      getFreq ⟨0, 0, 0, 520, 1, 0, 0⟩ = .error .divByZero) := by
  have hmem : ∀ d ∈ List.replicate 219053 51, 50 < d ∧ d < 2 ^ 32 := by
    intro d hd
    rw [List.eq_of_mem_replicate hd]
    norm_num
  have hsum : reciprocalSum (List.replicate 219053 51) = 4294972171 := by
    unfold reciprocalSum
    rw [List.map_replicate, List.sum_replicate, smul_eq_mul]
  have hmem2 : ∀ d ∈ List.replicate 4294967296 1000001, 50 < d ∧ d < 2 ^ 32 := by
    intro d hd
    rw [List.eq_of_mem_replicate hd]
    norm_num
  have hsum2 : reciprocalSum (List.replicate 4294967296 1000001) = 0 := by
    unfold reciprocalSum
    rw [List.map_replicate, List.sum_replicate, smul_eq_mul]
  refine ⟨⟨hmem, ?_, by decide, ?_⟩, hmem2, hsum2, ?_, by decide⟩
  · rw [saveFreqs_spec _ _ (by norm_num) (by norm_num)
      (fun d hd => ⟨by have := (hmem d hd).1; omega, (hmem d hd).2⟩), hsum,
      List.length_replicate]
    decide
  · have h2 : ((List.replicate 219053 51).map (fun d => 1000000 / d)).sum = 4294972171 := hsum
    rw [h2, List.length_replicate]
  · rw [saveFreqs_spec _ _ (by norm_num) (by norm_num)
      (fun d hd => ⟨by have := (hmem2 d hd).1; omega, (hmem2 d hd).2⟩), hsum2,
      List.length_replicate]
    decide

/-- C5 (the code at the failing input): rising-detect, from the zeroed state,
one oscillation whose first high sample arrives when `micros()` returns 0 and
whose first low sample arrives 100 microseconds later. `upStartTime` is set
to 0, which is also the value for "no half-cycle open": nothing is opened,
nothing is recorded and the frequency count stays 0. The same oscillation
one microsecond later is recorded. -/
theorem oscillation_at_clock_zero_not_recorded :
    520 > upperThreshold defaultConfig ∧ 495 < lowerThreshold defaultConfig ∧
      sub32 100 0 > 50 ∧
      feed defaultConfig State.init [(520, 0), (495, 100)] = .ok ⟨495, 0, 0, 0, 0, 0, 0⟩ ∧
      feed defaultConfig State.init [(520, 1), (495, 101)] =
        .ok ⟨495, 10000, 1, 520, 1, 0, 0⟩ :=
  ⟨by decide, by decide, by decide, by decide, by decide⟩

/-- C6: one run of the interrupt on a 16-bit sample. With `e` the globals
after the open/close logic, the Edge State of the result is that of `e`; if it
is nonzero the sample was added to the amplitude sum and 1 to the amplitude
count (`uint32_t` additions), otherwise the Amplitude Accumulator is
unchanged. -/
theorem amplitude_capture (c : Config) (s : State) (sample now : Nat)
    (hs : sample < 65536) :
    ∃ e s1, edgeLogic c { s with reading := sample } now = .ok e ∧
      ISR c s sample now = .ok s1 ∧ s1.upStartTime = e.upStartTime ∧
      (e.upStartTime ≠ 0 →
        s1.ampAvg = (s.ampAvg + sample) % 2 ^ 32 ∧ s1.ampCnt = (s.ampCnt + 1) % 2 ^ 32) ∧
      (e.upStartTime = 0 → s1.ampAvg = s.ampAvg ∧ s1.ampCnt = s.ampCnt) := by
  have hx : sample % 65536 = sample := Nat.mod_eq_of_lt hs
  obtain ⟨e, he, hr, ha, hn⟩ := edgeLogic_total c { s with reading := sample } now
  unfold ISR
  rw [hx, he]
  by_cases h0 : e.upStartTime = 0
  · refine ⟨e, e, rfl, ?_, rfl, fun h => absurd h0 h, fun _ => ⟨ha, hn⟩⟩
    simp [h0]
  · refine ⟨e, saveAmp e e.reading, rfl, ?_, rfl, fun _ => ?_, fun h => absurd h h0⟩
    · simp [Nat.pos_of_ne_zero h0]
    · exact ⟨by simp [saveAmp, hr, ha, hx], by simp [saveAmp, hn]⟩

theorem amplitude_capture_witness :
    520 < 65536 ∧
      ∃ e s1, edgeLogic defaultConfig { State.init with reading := 520 } 100 = .ok e ∧
        ISR defaultConfig State.init 520 100 = .ok s1 ∧ s1.upStartTime = e.upStartTime ∧
        (e.upStartTime ≠ 0 →
          s1.ampAvg = (State.init.ampAvg + 520) % 2 ^ 32 ∧
          s1.ampCnt = (State.init.ampCnt + 1) % 2 ^ 32) ∧
        (e.upStartTime = 0 →
          s1.ampAvg = State.init.ampAvg ∧ s1.ampCnt = State.init.ampCnt) :=
  ⟨by decide, amplitude_capture defaultConfig State.init 520 100 (by decide)⟩

/-- C7, as amended: from the zeroed state, `a1` opens a half-cycle, the
samples of `rest` arrive while it is open and do not close it (`k` samples in
all, `k = rest.length + 1`), a closing sample follows after more than 50
microseconds, and then `getFreq`. When `a_1 + ... + a_k` and `k` are both
below `2^32`, the reported amplitude is `(a_1 + ... + a_k) / k`, truncated. -/
theorem amplitude_average (c : Config) (a1 t1 x tc : Nat) (rest : List (Nat × Nat))
    (ha1 : a1 < 65536) (hopen : opensOn c a1) (ht1 : t1 % 2 ^ 32 ≠ 0)
    (hrest : ∀ p ∈ rest, p.1 < 65536 ∧ ¬ closesOn c p.1)
    (hx : x < 65536) (hclose : closesOn c x) (hdur : sub32 tc t1 > 50)
    (hsum : a1 + (rest.map Prod.fst).sum < 2 ^ 32) (hk : rest.length + 1 < 2 ^ 32) :
    ∃ s1 r, feed c State.init ((a1, t1) :: rest ++ [(x, tc)]) = .ok s1 ∧
      getFreq s1 = .ok r ∧
      r.amplitude = (a1 + (rest.map Prod.fst).sum) / (rest.length + 1) := by
  have h := single_half_cycle c a1 t1 x tc rest ha1 hopen ht1 hrest hx hclose hdur
  rw [Nat.mod_eq_of_lt hsum, Nat.mod_eq_of_lt hk] at h
  exact ⟨_, _, h, getFreq_ok _ (by simp) (by simp), rfl⟩

theorem amplitude_average_witness :
    520 < 65536 ∧ opensOn defaultConfig 520 ∧ 100 % 2 ^ 32 ≠ 0 ∧
      (∀ p ∈ [(530, 126), (515, 152)], p.1 < 65536 ∧ ¬ closesOn defaultConfig p.1) ∧
      495 < 65536 ∧ closesOn defaultConfig 495 ∧ sub32 600 100 > 50 ∧
      520 + ([(530, 126), (515, 152)].map Prod.fst).sum < 2 ^ 32 ∧
      [(530, 126), (515, 152)].length + 1 < 2 ^ 32 ∧
      ∃ s1 r, feed defaultConfig State.init
          ((520, 100) :: [(530, 126), (515, 152)] ++ [(495, 600)]) = .ok s1 ∧
        getFreq s1 = .ok r ∧
        r.amplitude = (520 + ([(530, 126), (515, 152)].map Prod.fst).sum) /
          ([(530, 126), (515, 152)].length + 1) :=
  ⟨by decide, by decide, by decide, by decide, by decide, by decide, by decide, by decide,
    by decide,
    amplitude_average defaultConfig 520 100 495 600 [(530, 126), (515, 152)] (by decide)
      (by decide) (by decide) (by decide) (by decide) (by decide) (by decide) (by decide)
      (by decide)⟩

/-- C7 as stated fails once a 32-bit amplitude accumulator wraps. The sum: a
half-cycle opened by a sample of 1023 and kept open by 4198404 more samples of
1023 (about 109 seconds at one conversion per 26 microseconds), then closed;
4198405 * 1023 = 4294968315 exceeds `2^32` by 1019, so `getFreq` writes
`1019 / 4198405 = 0` to the amplitude output, while `(a_1 + ... + a_k) / k` is
1023. The count: with `LOW_HI`, a half-cycle opened by a sample of 0 and kept
open by `2^32 - 1` more samples of 0 leaves `ampCnt` at 0, and `getFreq`
divides by zero. The invocations that keep a half-cycle open do not read the
clock. -/
theorem amplitude_average_wraps :
    (feed defaultConfig State.init
        ((1023, 1000) :: List.replicate 4198404 (1023, 1000) ++ [(495, 109159530)]) =
        .ok ⟨495, 0, 1, 1019, 4198405, 0, 0⟩ ∧
      getFreq ⟨495, 0, 1, 1019, 4198405, 0, 0⟩ = .ok ⟨0, 0, 1, ⟨495, 0, 0, 0, 0, 0, 0⟩⟩ ∧
      (1023 + ((List.replicate 4198404 (1023, 1000)).map Prod.fst).sum) /
        ((List.replicate 4198404 (1023, 1000)).length + 1) = 1023) ∧
    (feed ⟨508, 10, true⟩ State.init
        ((0, 1000) :: List.replicate 4294967295 (0, 1000) ++ [(520, 2000)]) =
        .ok ⟨520, 1000, 1, 0, 0, 0, 0⟩ ∧
      getFreq ⟨520, 1000, 1, 0, 0, 0, 0⟩ = .error .divByZero ∧
      0 + ((List.replicate 4294967295 (0, 1000)).map Prod.fst).sum = 0) := by
  have hmem : ∀ p ∈ List.replicate 4198404 ((1023, 1000) : Nat × Nat),
      p.1 < 65536 ∧ ¬ closesOn defaultConfig p.1 := by
    intro p hp
    rw [List.eq_of_mem_replicate hp]
    decide
  have hsum : ((List.replicate 4198404 ((1023, 1000) : Nat × Nat)).map Prod.fst).sum =
      4294967292 := by
    rw [List.map_replicate, List.sum_replicate, smul_eq_mul]
    rfl
  have hmem2 : ∀ p ∈ List.replicate 4294967295 ((0, 1000) : Nat × Nat),
      p.1 < 65536 ∧ ¬ closesOn ⟨508, 10, true⟩ p.1 := by
    intro p hp
    rw [List.eq_of_mem_replicate hp]
    decide
  have hsum2 : ((List.replicate 4294967295 ((0, 1000) : Nat × Nat)).map Prod.fst).sum =
      0 := by
    rw [List.map_replicate, List.sum_replicate, smul_eq_mul]
    rfl
  refine ⟨⟨?_, by decide, ?_⟩, ?_, by decide, ?_⟩
  · rw [single_half_cycle defaultConfig 1023 1000 495 109159530 _ (by decide) (by decide)
      (by decide) hmem (by decide) (by decide) (by decide), hsum, List.length_replicate]
    decide
  · rw [hsum, List.length_replicate]
  · rw [single_half_cycle ⟨508, 10, true⟩ 0 1000 520 2000 _ (by decide) (by decide)
      (by decide) hmem2 (by decide) (by decide) (by decide), hsum2, List.length_replicate]
    decide
  · rw [hsum2]

/-- C8, as amended. For every interleaving of interrupt invocations and
`getFreq` calls from the zeroed state that runs without a fault: every
`getFreq` of it was called with `fAvailable()` true; the sample counts returned
by the drains plus the frequency count left at the end equal the number of
invocations that closed a half-cycle of more than 50 microseconds minus a
multiple of `2^32` (the count is a `uint32_t`), hence equal it when that number
is below `2^32`. And what a `getFreq` returns after a completed `getFreq` is
determined by the Edge State that one left and the invocations since. -/
theorem no_window_leakage (c : Config) :
    (∀ evs s ds, run c State.init evs = .ok (s, ds) →
      guarded c State.init evs = true ∧
      (∃ w, (ds.map Drained.samples).sum + s.varCnt + 2 ^ 32 * w =
        closures c State.init evs) ∧
      (closures c State.init evs < 2 ^ 32 →
        (ds.map Drained.samples).sum + s.varCnt = closures c State.init evs)) ∧
    (∀ s t d e xs, getFreq s = .ok d → getFreq t = .ok e →
      d.state.upStartTime = e.state.upStartTime →
      drainAfter c d.state xs = drainAfter c e.state xs) := by
  constructor
  · intro evs s ds h
    obtain ⟨w, hw⟩ := run_conservation c evs State.init s ds (by decide) h
    have hz : State.init.varCnt = 0 := rfl
    rw [hz, Nat.zero_add] at hw
    refine ⟨run_ok_guarded c evs State.init s ds h, ⟨w, hw⟩, ?_⟩
    intro hlt
    omega
  · intro s t d e xs hd he hup
    apply drainAfter_sameWindow
    rw [(getFreq_state s d hd).2, (getFreq_state t e he).2] at hup ⊢
    exact ⟨rfl, rfl, rfl, rfl, hup⟩

theorem no_window_leakage_witness :
    run defaultConfig State.init
        [.adc 520 100, .adc 495 200, .drain, .adc 520 350, .adc 495 1350] =
        .ok (⟨495, 1000, 1, 520, 1, 0, 0⟩, [⟨5000, 520, 1, ⟨495, 0, 0, 0, 0, 0, 0⟩⟩]) ∧
      closures defaultConfig State.init
        [.adc 520 100, .adc 495 200, .drain, .adc 520 350, .adc 495 1350] < 2 ^ 32 ∧
      ([(⟨5000, 520, 1, ⟨495, 0, 0, 0, 0, 0, 0⟩⟩ : Drained)].map Drained.samples).sum +
          (⟨495, 1000, 1, 520, 1, 0, 0⟩ : State).varCnt =
        closures defaultConfig State.init
          [.adc 520 100, .adc 495 200, .drain, .adc 520 350, .adc 495 1350] ∧
      getFreq ⟨520, 10000, 1, 1040, 2, 300, 0⟩ = .ok ⟨5000, 520, 1, ⟨520, 0, 0, 0, 0, 300, 0⟩⟩ ∧
      getFreq ⟨530, 4000, 2, 530, 1, 300, 0⟩ = .ok ⟨1000, 530, 2, ⟨530, 0, 0, 0, 0, 300, 0⟩⟩ ∧
      drainAfter defaultConfig ⟨520, 0, 0, 0, 0, 300, 0⟩ [(520, 350), (495, 1300)] =
        drainAfter defaultConfig ⟨530, 0, 0, 0, 0, 300, 0⟩ [(520, 350), (495, 1300)] :=
  ⟨by decide, by decide,
    ((no_window_leakage defaultConfig).1 _ _ _ (by decide)).2.2 (by decide),
    by decide, by decide,
    (no_window_leakage defaultConfig).2 ⟨520, 10000, 1, 1040, 2, 300, 0⟩
      ⟨530, 4000, 2, 530, 1, 300, 0⟩ ⟨5000, 520, 1, ⟨520, 0, 0, 0, 0, 300, 0⟩⟩
      ⟨1000, 530, 2, ⟨530, 0, 0, 0, 0, 300, 0⟩⟩ [(520, 350), (495, 1300)]
      (by decide) (by decide) rfl⟩

/-- C8 as stated fails in both halves. The values of a drain depend on
invocations before the previous drain: the two traces differ only in the clock
value (300 or 320) of the invocation that opens a half-cycle before the first
`getFreq`, and the second `getFreq` returns 500 in one and 510 in the other.
After `2^32` recorded half-cycles without a drain the 32-bit count is back
at 0, while `2^32` invocations closed a half-cycle. And a drain made with
`fAvailable()` true can fault, returning no values at all. -/
theorem window_leakage_counterexample :
    (guarded defaultConfig State.init
        [.adc 520 100, .adc 495 200, .adc 520 300, .drain, .adc 520 350, .adc 495 1300,
          .drain] = true ∧
      guarded defaultConfig State.init
        [.adc 520 100, .adc 495 200, .adc 520 320, .drain, .adc 520 350, .adc 495 1300,
          .drain] = true ∧
      run defaultConfig State.init
        [.adc 520 100, .adc 495 200, .adc 520 300, .drain, .adc 520 350, .adc 495 1300,
          .drain] =
        .ok (⟨495, 0, 0, 0, 0, 0, 0⟩,
          [⟨5000, 520, 1, ⟨520, 0, 0, 0, 0, 300, 0⟩⟩, ⟨500, 520, 1, ⟨495, 0, 0, 0, 0, 0, 0⟩⟩]) ∧
      run defaultConfig State.init
        [.adc 520 100, .adc 495 200, .adc 520 320, .drain, .adc 520 350, .adc 495 1300,
          .drain] =
        .ok (⟨495, 0, 0, 0, 0, 0, 0⟩,
          [⟨5000, 520, 1, ⟨520, 0, 0, 0, 0, 320, 0⟩⟩,
            ⟨510, 520, 1, ⟨495, 0, 0, 0, 0, 0, 0⟩⟩])) ∧
    (∃ s, run defaultConfig State.init (oscillations 4294967296) = .ok (s, []) ∧
      guarded defaultConfig State.init (oscillations 4294967296) = true ∧
      (([] : List Drained).map Drained.samples).sum + s.varCnt = 0 ∧
      closures defaultConfig State.init (oscillations 4294967296) = 4294967296) ∧
    (guarded defaultConfig State.init
        [.adc 520 100, .adc 495 200, .adc 520 300, .drain, .adc 495 400, .drain] = true ∧
      run defaultConfig State.init
        [.adc 520 100, .adc 495 200, .adc 520 300, .drain, .adc 495 400, .drain] =
        .error .divByZero) := by
  refine ⟨⟨by decide, by decide, by decide, by decide⟩, ?_, by decide, by decide⟩
  obtain ⟨s, h1, -, h2, h3⟩ := run_oscillations 4294967296 State.init rfl (by decide)
  refine ⟨s, h1, run_ok_guarded _ _ _ _ _ h1, ?_, h3⟩
  rw [h2]
  decide

/-- C9: whenever `getFreq` completes, the frequency sum and count and the
amplitude sum and count are zero afterwards and `fAvailable()` is false; it
stays false over every run of interrupt invocations none of which records a
half-cycle, and the first invocation that records one makes it true. -/
theorem getFreq_resets (c : Config) (s : State) (d : Drained)
    (h : getFreq s = .ok d) :
    d.state.varAvg = 0 ∧ d.state.varCnt = 0 ∧ d.state.ampAvg = 0 ∧
      d.state.ampCnt = 0 ∧ fAvailable d.state = false ∧
      ∀ xs, anyRecords c d.state xs = false →
        ∃ s1, feed c d.state xs = .ok s1 ∧ fAvailable s1 = false ∧
          ∀ x t, records c s1 x t = true →
            ∃ s2, ISR c s1 x t = .ok s2 ∧ fAvailable s2 = true := by
  have hd : d.state = s.cleared := by
    unfold getFreq at h
    split_ifs at h with h1 h2
    simp only [Except.ok.injEq] at h
    rw [← h]; rfl
  rw [hd]
  refine ⟨rfl, rfl, rfl, rfl, rfl, ?_⟩
  intro xs hxs
  obtain ⟨s1, h1, hc1, -⟩ := feed_no_records c xs s.cleared hxs
  have hz : s1.varCnt = 0 := hc1
  refine ⟨s1, h1, by simp [fAvailable, hz], ?_⟩
  intro x t hrec
  obtain ⟨s2, h2, -, -, -, hcnt, -, -, -⟩ := ISR_spec c s1 x t
  rw [hrec, hz] at hcnt
  exact ⟨s2, h2, by simp [fAvailable, hcnt]⟩

theorem getFreq_resets_witness :
    getFreq ⟨495, 30000, 3, 1560, 3, 0, 0⟩ = .ok ⟨5000, 520, 3, ⟨495, 0, 0, 0, 0, 0, 0⟩⟩ ∧
      (⟨495, 0, 0, 0, 0, 0, 0⟩ : State).varAvg = 0 ∧
      (⟨495, 0, 0, 0, 0, 0, 0⟩ : State).varCnt = 0 ∧
      (⟨495, 0, 0, 0, 0, 0, 0⟩ : State).ampAvg = 0 ∧
      (⟨495, 0, 0, 0, 0, 0, 0⟩ : State).ampCnt = 0 ∧
      fAvailable ⟨495, 0, 0, 0, 0, 0, 0⟩ = false :=
  ⟨by decide,
    (getFreq_resets defaultConfig ⟨495, 30000, 3, 1560, 3, 0, 0⟩
      ⟨5000, 520, 3, ⟨495, 0, 0, 0, 0, 0, 0⟩⟩ (by decide)).1,
    (getFreq_resets defaultConfig ⟨495, 30000, 3, 1560, 3, 0, 0⟩
      ⟨5000, 520, 3, ⟨495, 0, 0, 0, 0, 0, 0⟩⟩ (by decide)).2.1,
    (getFreq_resets defaultConfig ⟨495, 30000, 3, 1560, 3, 0, 0⟩
      ⟨5000, 520, 3, ⟨495, 0, 0, 0, 0, 0, 0⟩⟩ (by decide)).2.2.1,
    (getFreq_resets defaultConfig ⟨495, 30000, 3, 1560, 3, 0, 0⟩
      ⟨5000, 520, 3, ⟨495, 0, 0, 0, 0, 0, 0⟩⟩ (by decide)).2.2.2.1,
    (getFreq_resets defaultConfig ⟨495, 30000, 3, 1560, 3, 0, 0⟩
      ⟨5000, 520, 3, ⟨495, 0, 0, 0, 0, 0, 0⟩⟩ (by decide)).2.2.2.2.1⟩

/-- C10: with `varCnt = 0` the first division of `getFreq` is a division by
zero and no value is returned; in particular a `getFreq` that directly follows
a completed `getFreq` faults. -/
theorem getFreq_empty_faults (s : State) :
    (s.varCnt = 0 → getFreq s = .error .divByZero) ∧
      ∀ d, getFreq s = .ok d → getFreq d.state = .error .divByZero := by
  constructor
  · intro h; simp [getFreq, h]
  · intro d h
    unfold getFreq at h
    split_ifs at h with h1 h2
    simp only [Except.ok.injEq] at h
    rw [← h]; rfl

theorem getFreq_empty_faults_witness :
    State.init.varCnt = 0 ∧ getFreq State.init = .error .divByZero ∧
      getFreq ⟨495, 30000, 3, 1560, 3, 0, 0⟩ = .ok ⟨5000, 520, 3, ⟨495, 0, 0, 0, 0, 0, 0⟩⟩ ∧
      getFreq ⟨495, 0, 0, 0, 0, 0, 0⟩ = .error .divByZero :=
  ⟨rfl, (getFreq_empty_faults State.init).1 rfl, by decide,
    (getFreq_empty_faults ⟨495, 30000, 3, 1560, 3, 0, 0⟩).2
      ⟨5000, 520, 3, ⟨495, 0, 0, 0, 0, 0, 0⟩⟩ (by decide)⟩

/-- C11: `midPoint` 508, `sensitivity` 10, rising-detect, from the zeroed
state. For `i = 0..9` a sample of 520 at `t0 + 1000 * i` and a sample of 495 at
`t0 + 1000 * i + 500`, with `t0` nonzero and no clock wrap (the last clock
value, `t0 + 9500`, is below `2^32`); then `getFreq`. It returns an average
frequency of 1000, an amplitude of 520 and a sample count of 10. -/
theorem end_to_end (t0 : Nat) (hnz : t0 ≠ 0) (hwrap : t0 + 9500 < 2 ^ 32) :
    ∃ s d, feed defaultConfig State.init
        ((List.range 10).map
          (fun i => [(520, t0 + 1000 * i), (495, t0 + 1000 * i + 500)])).flatten = .ok s ∧
      getFreq s = .ok d ∧ d.samples = 10 ∧ d.avg = 1000 ∧ d.amplitude = 520 := by
  have htrace : ((List.range 10).map
      (fun i => [(520, t0 + 1000 * i), (495, t0 + 1000 * i + 500)])).flatten =
      squareWave ((List.range 10).map (fun i => (t0 + 1000 * i, t0 + 1000 * i + 500))) := by
    unfold squareWave
    rw [List.map_map]
    rfl
  have hts : ∀ p ∈ (List.range 10).map (fun i => (t0 + 1000 * i, t0 + 1000 * i + 500)),
      p.1 % 2 ^ 32 ≠ 0 ∧ sub32 p.2 p.1 = 500 := by
    intro p hp
    obtain ⟨i, hi, rfl⟩ := List.mem_map.mp hp
    have hi10 : i < 10 := List.mem_range.mp hi
    constructor
    · show (t0 + 1000 * i) % 2 ^ 32 ≠ 0
      rw [Nat.mod_eq_of_lt (by omega)]
      omega
    · exact sub32_add (t0 + 1000 * i) 500 (by omega)
  have hlen : ((List.range 10).map
      (fun i => (t0 + 1000 * i, t0 + 1000 * i + 500))).length = 10 := by
    rw [List.length_map, List.length_range]
  obtain ⟨s, hfeed, -, hac, haa, hdur⟩ := feed_squareWave _ State.init rfl (by decide)
    (by decide) (fun p hp => ⟨(hts p hp).1, by rw [(hts p hp).2]; norm_num⟩)
  obtain ⟨s', hfeed', hvc, hva, -⟩ := feed_durations defaultConfig
    (squareWave ((List.range 10).map (fun i => (t0 + 1000 * i, t0 + 1000 * i + 500))))
    State.init (by decide) (by decide)
  rw [hfeed] at hfeed'
  simp only [Except.ok.injEq] at hfeed'
  subst hfeed'
  have hd500 : ((List.range 10).map (fun i => (t0 + 1000 * i, t0 + 1000 * i + 500))).map
      (fun p => sub32 p.2 p.1) = List.replicate 10 500 := by
    rw [List.eq_replicate_iff]
    constructor
    · rw [List.length_map, hlen]
    · intro d hd
      obtain ⟨p, hp, rfl⟩ := List.mem_map.mp hd
      exact (hts p hp).2
  rw [hdur, hd500] at hvc hva
  rw [reciprocalSum_replicate] at hva
  rw [List.length_replicate] at hvc
  rw [hlen] at hac haa
  have e1 : s.varCnt = 10 := by rw [hvc]; rfl
  have e2 : s.varAvg = 20000 := by rw [hva]; rfl
  have e3 : s.ampCnt = 10 := by rw [hac]; rfl
  have e4 : s.ampAvg = 5200 := by rw [haa]; rfl
  refine ⟨s, _, htrace ▸ hfeed, getFreq_ok s (by rw [e1]; decide) (by rw [e3]; decide),
    e1, ?_, ?_⟩
  · show s.varAvg / s.varCnt / 2 = 1000
    rw [e1, e2]
  · show s.ampAvg / s.ampCnt = 520
    rw [e3, e4]

theorem end_to_end_witness :
    100 ≠ 0 ∧ 100 + 9500 < 2 ^ 32 ∧
    ∃ s d, feed defaultConfig State.init
        ((List.range 10).map
          (fun i => [(520, 100 + 1000 * i), (495, 100 + 1000 * i + 500)])).flatten = .ok s ∧
      getFreq s = .ok d ∧ d.samples = 10 ∧ d.avg = 1000 ∧ d.amplitude = 520 :=
  ⟨by decide, by decide, end_to_end 100 (by decide) (by decide)⟩

/-- C12 (the code at the failing input): rising-detect, no half-cycle open, a
sample of 520 (at or above `midPoint + sensitivity` = 518) arriving when
`micros()` returns 0. The Edge State is set to the clock value, 0, which is
the value for "no half-cycle open": after the invocation no half-cycle is
open and no amplitude sample was taken. At clock value 1 the same invocation
opens the half-cycle. -/
theorem opening_at_clock_zero_stays_closed :
    State.init.upStartTime = 0 ∧ upperThreshold defaultConfig ≤ 520 ∧
      ISR defaultConfig State.init 520 0 = .ok ⟨520, 0, 0, 0, 0, 0, 0⟩ ∧
      ISR defaultConfig State.init 520 1 = .ok ⟨520, 0, 0, 520, 1, 1, 0⟩ :=
  ⟨by decide, by decide, by decide, by decide⟩

/-- C13: `fAvailable()` is true if and only if `varCnt` is nonzero. Its body
is one comparison and writes no global: the function of the model has the
globals as its input only. -/
theorem fAvailable_iff (s : State) : fAvailable s = true ↔ s.varCnt ≠ 0 := by
  unfold fAvailable
  by_cases h : s.varCnt = 0
  · simp [h]
  · simp [h, Nat.pos_of_ne_zero h]

/-- C14: `getFreq` leaves `upStartTime` as it is, and so do `saveAmp` and
`saveFreq` (`fAvailable` writes no global at all): only the two assignments in
the interrupt change it. One run of the interrupt, under rising-detect, takes
the Edge State from zero to nonzero only when the sample is at or above
`midPoint + sensitivity` and from nonzero to zero only when the sample is at
or below `midPoint - sensitivity`; with `LOW_HI` the two thresholds exchange
roles. Under either polarity a nonzero Edge State is never replaced by a
different nonzero value. -/
theorem edge_state_frame (c : Config) (s : State) (sample now : Nat)
    (hs : sample < 65536) :
    (∀ d, getFreq s = .ok d → d.state.upStartTime = s.upStartTime) ∧
    (∀ a, (saveAmp s a).upStartTime = s.upStartTime) ∧
    (∀ uS s1, saveFreq s uS = .ok s1 → s1.upStartTime = s.upStartTime) ∧
    ∃ s1, ISR c s sample now = .ok s1 ∧
      (c.lowHi = false →
        (s.upStartTime = 0 → s1.upStartTime ≠ 0 → upperThreshold c ≤ sample) ∧
        (s.upStartTime ≠ 0 → s1.upStartTime = 0 → sample ≤ lowerThreshold c)) ∧
      (c.lowHi = true →
        (s.upStartTime = 0 → s1.upStartTime ≠ 0 → sample ≤ lowerThreshold c) ∧
        (s.upStartTime ≠ 0 → s1.upStartTime = 0 → upperThreshold c ≤ sample)) ∧
      (s.upStartTime ≠ 0 → s1.upStartTime ≠ 0 → s1.upStartTime = s.upStartTime) := by
  have hx : sample % 65536 = sample := Nat.mod_eq_of_lt hs
  refine ⟨?_, fun _ => rfl, ?_, ?_⟩
  · intro d hd
    rw [(getFreq_state s d hd).2]; rfl
  · intro uS s1 h
    unfold saveFreq at h
    split_ifs at h
    simp only [Except.ok.injEq] at h
    rw [← h]
  · obtain ⟨s1, h1, ho, hcl, hk⟩ := ISR_edge_changes c s sample now
    rw [hx] at ho hcl
    refine ⟨s1, h1, ?_, ?_, hk⟩
    · intro hc
      constructor
      · intro h0 hne
        have := ho h0 hne
        unfold opensOn at this; rw [if_pos hc] at this; exact this
      · intro h0 hz
        have := hcl h0 hz
        unfold closesOn at this; rw [if_pos hc] at this; exact this
    · intro hc
      have hc2 : ¬ c.lowHi = false := by rw [hc]; decide
      constructor
      · intro h0 hne
        have := ho h0 hne
        unfold opensOn at this; rw [if_neg hc2] at this; exact this
      · intro h0 hz
        have := hcl h0 hz
        unfold closesOn at this; rw [if_neg hc2] at this; exact this

theorem edge_state_frame_witness :
    520 < 65536 ∧
    (∀ d, getFreq State.init = .ok d → d.state.upStartTime = State.init.upStartTime) ∧
    (∀ a, (saveAmp State.init a).upStartTime = State.init.upStartTime) ∧
    (∀ uS s1, saveFreq State.init uS = .ok s1 →
      s1.upStartTime = State.init.upStartTime) ∧
    ∃ s1, ISR defaultConfig State.init 520 100 = .ok s1 ∧
      (defaultConfig.lowHi = false →
        (State.init.upStartTime = 0 → s1.upStartTime ≠ 0 →
          upperThreshold defaultConfig ≤ 520) ∧
        (State.init.upStartTime ≠ 0 → s1.upStartTime = 0 →
          520 ≤ lowerThreshold defaultConfig)) ∧
      (defaultConfig.lowHi = true →
        (State.init.upStartTime = 0 → s1.upStartTime ≠ 0 →
          520 ≤ lowerThreshold defaultConfig) ∧
        (State.init.upStartTime ≠ 0 → s1.upStartTime = 0 →
          upperThreshold defaultConfig ≤ 520)) ∧
      (State.init.upStartTime ≠ 0 → s1.upStartTime ≠ 0 →
        s1.upStartTime = State.init.upStartTime) :=
  ⟨by decide, edge_state_frame defaultConfig State.init 520 100 (by decide)⟩

/-- C15: a sample strictly inside the band, `midPoint - sensitivity < sample <
midPoint + sensitivity`, at any clock value and in any state, leaves the Edge
State and the frequency sum and count unchanged; and so does every sequence of
such samples, of any length: none opens or closes a half-cycle. -/
theorem hysteresis_band (c : Config) (s : State) :
    (∀ sample now, lowerThreshold c < sample → sample < upperThreshold c →
      ∃ s1, ISR c s sample now = .ok s1 ∧ s1.upStartTime = s.upStartTime ∧
        s1.varAvg = s.varAvg ∧ s1.varCnt = s.varCnt) ∧
    (∀ xs : List (Nat × Nat),
      (∀ p ∈ xs, lowerThreshold c < p.1 ∧ p.1 < upperThreshold c) →
      ∃ s1, feed c s xs = .ok s1 ∧ s1.upStartTime = s.upStartTime ∧
        s1.varAvg = s.varAvg ∧ s1.varCnt = s.varCnt) :=
  ⟨fun sample now h1 h2 => ISR_inBand c s sample now h1 h2,
    fun xs h => feed_inBand c xs s h⟩

theorem hysteresis_band_witness :
    (lowerThreshold defaultConfig < 508 ∧ 508 < upperThreshold defaultConfig ∧
      ∃ s1, ISR defaultConfig ⟨0, 0, 0, 520, 1, 100, 0⟩ 508 126 = .ok s1 ∧
        s1.upStartTime = (⟨0, 0, 0, 520, 1, 100, 0⟩ : State).upStartTime ∧
        s1.varAvg = (⟨0, 0, 0, 520, 1, 100, 0⟩ : State).varAvg ∧
        s1.varCnt = (⟨0, 0, 0, 520, 1, 100, 0⟩ : State).varCnt) ∧
    ((∀ p ∈ [(499, 126), (517, 152), (508, 178)],
        lowerThreshold defaultConfig < p.1 ∧ p.1 < upperThreshold defaultConfig) ∧
      ∃ s1, feed defaultConfig ⟨0, 0, 0, 520, 1, 100, 0⟩
          [(499, 126), (517, 152), (508, 178)] = .ok s1 ∧
        s1.upStartTime = (⟨0, 0, 0, 520, 1, 100, 0⟩ : State).upStartTime ∧
        s1.varAvg = (⟨0, 0, 0, 520, 1, 100, 0⟩ : State).varAvg ∧
        s1.varCnt = (⟨0, 0, 0, 520, 1, 100, 0⟩ : State).varCnt) :=
  ⟨⟨by decide, by decide,
      (hysteresis_band defaultConfig ⟨0, 0, 0, 520, 1, 100, 0⟩).1 508 126 (by decide)
        (by decide)⟩,
    by decide,
    (hysteresis_band defaultConfig ⟨0, 0, 0, 520, 1, 100, 0⟩).2
      [(499, 126), (517, 152), (508, 178)] (by decide)⟩

/-- C16: for a configuration whose band lies inside the range of the reading
(`sensitivity ≤ midPoint`, `2 * midPoint < 65536`) and a sample `s ≤ 2 *
midPoint`, one run of the interrupt built with `LOW_HI` on `s` leaves the same
Edge State, frequency sum and frequency count as one run built without it on
the mirrored sample `2 * midPoint - s`. So with `LOW_HI`, when no half-cycle
is open a sample `s ≤ midPoint - sensitivity` opens one, and when one is open
a sample `s ≥ midPoint + sensitivity` closes it, with the same gate of 50
microseconds and the same `1000000 / duration` added. -/
theorem polarity_mirror (c : Config) (s : State) (sample now : Nat)
    (hband : c.sensitivity ≤ c.midPoint) (hm : 2 * c.midPoint < 65536)
    (hx : sample ≤ 2 * c.midPoint) :
    ∃ f r, ISR { c with lowHi := true } s sample now = .ok f ∧
      ISR { c with lowHi := false } s (2 * c.midPoint - sample) now = .ok r ∧
      f.upStartTime = r.upStartTime ∧ f.varAvg = r.varAvg ∧ f.varCnt = r.varCnt ∧
      (s.upStartTime = 0 → sample ≤ c.midPoint - c.sensitivity →
        f.upStartTime = now % 2 ^ 32 ∧ f.varAvg = s.varAvg ∧ f.varCnt = s.varCnt) ∧
      (s.upStartTime ≠ 0 → c.midPoint + c.sensitivity ≤ sample →
        f.upStartTime = 0 ∧
        (sub32 now s.upStartTime ≤ 50 → f.varAvg = s.varAvg ∧ f.varCnt = s.varCnt) ∧
        (sub32 now s.upStartTime > 50 →
          f.varCnt = (s.varCnt + 1) % 2 ^ 32 ∧
          f.varAvg = (s.varAvg + 1000000 / sub32 now s.upStartTime) % 2 ^ 32)) := by
  have hs1 : sample % 65536 = sample := Nat.mod_eq_of_lt (by omega)
  have hs2 : (2 * c.midPoint - sample) % 65536 = 2 * c.midPoint - sample :=
    Nat.mod_eq_of_lt (by omega)
  obtain ⟨hopen, hclose⟩ := mirror_sides c sample hband hm hx
  have hu : upperThreshold c = c.midPoint + c.sensitivity :=
    upperThreshold_eq c (by omega)
  have hl : lowerThreshold c = c.midPoint - c.sensitivity :=
    lowerThreshold_eq c hband (by omega)
  obtain ⟨f, hf, -, -, hfu, hfc, hfa, -, -⟩ :=
    ISR_spec { c with lowHi := true } s sample now
  obtain ⟨r, hr, -, -, hru, hrc, hra, -, -⟩ :=
    ISR_spec { c with lowHi := false } s (2 * c.midPoint - sample) now
  rw [hs1] at hfu
  rw [hs2] at hru
  have hrec : records { c with lowHi := true } s sample now =
      records { c with lowHi := false } s (2 * c.midPoint - sample) now := by
    unfold records
    rw [hs1, hs2]
    simp only [hclose]
  refine ⟨f, r, hf, hr, ?_, ?_, ?_, ?_, ?_⟩
  · rw [hfu, hru]
    simp only [hopen, hclose]
  · rw [hfa, hra, hrec]
  · rw [hfc, hrc, hrec]
  · intro h0 hlow
    have ho : opensOn { c with lowHi := true } sample := by
      unfold opensOn
      simp only [Bool.true_eq_false, if_false]
      show sample ≤ lowerThreshold c
      rw [hl]; exact hlow
    have hrec0 : records { c with lowHi := true } s sample now = false := by
      unfold records; simp [h0]
    simp only [hrec0, Bool.false_eq_true, if_false] at hfc hfa
    rw [if_pos h0, if_pos ho] at hfu
    exact ⟨hfu, hfa, hfc⟩
  · intro h0 hhigh
    have hc : closesOn { c with lowHi := true } sample := by
      unfold closesOn
      simp only [Bool.true_eq_false, if_false]
      show upperThreshold c ≤ sample
      rw [hu]; exact hhigh
    rw [if_neg h0, if_pos hc] at hfu
    refine ⟨hfu, ?_, ?_⟩
    · intro hd
      have hrec0 : records { c with lowHi := true } s sample now = false := by
        unfold records; simp [hd]
      simp only [hrec0, Bool.false_eq_true, if_false] at hfc hfa
      exact ⟨hfa, hfc⟩
    · intro hd
      have hrec1 : records { c with lowHi := true } s sample now = true := by
        unfold records; rw [hs1]
        simp only [decide_eq_true_eq]
        exact ⟨Nat.pos_of_ne_zero h0, hc, hd⟩
      simp only [hrec1, if_true] at hfc hfa
      exact ⟨hfc, hfa⟩

theorem polarity_mirror_witness :
    defaultConfig.sensitivity ≤ defaultConfig.midPoint ∧
    2 * defaultConfig.midPoint < 65536 ∧ 520 ≤ 2 * defaultConfig.midPoint ∧
    ISR { defaultConfig with lowHi := true } ⟨495, 0, 0, 495, 1, 100, 0⟩ 520 700 =
      .ok ⟨520, 1666, 1, 495, 1, 0, 0⟩ ∧
    ISR { defaultConfig with lowHi := false } ⟨495, 0, 0, 495, 1, 100, 0⟩
      (2 * defaultConfig.midPoint - 520) 700 = .ok ⟨496, 1666, 1, 495, 1, 0, 0⟩ ∧
    ∃ f r, ISR { defaultConfig with lowHi := true } ⟨495, 0, 0, 495, 1, 100, 0⟩ 520 700 =
        .ok f ∧
      ISR { defaultConfig with lowHi := false } ⟨495, 0, 0, 495, 1, 100, 0⟩
        (2 * defaultConfig.midPoint - 520) 700 = .ok r ∧
      f.upStartTime = r.upStartTime ∧ f.varAvg = r.varAvg ∧ f.varCnt = r.varCnt ∧
      ((⟨495, 0, 0, 495, 1, 100, 0⟩ : State).upStartTime = 0 →
        520 ≤ defaultConfig.midPoint - defaultConfig.sensitivity →
        f.upStartTime = 700 % 2 ^ 32 ∧
        f.varAvg = (⟨495, 0, 0, 495, 1, 100, 0⟩ : State).varAvg ∧
        f.varCnt = (⟨495, 0, 0, 495, 1, 100, 0⟩ : State).varCnt) ∧
      ((⟨495, 0, 0, 495, 1, 100, 0⟩ : State).upStartTime ≠ 0 →
        defaultConfig.midPoint + defaultConfig.sensitivity ≤ 520 →
        f.upStartTime = 0 ∧
        (sub32 700 (⟨495, 0, 0, 495, 1, 100, 0⟩ : State).upStartTime ≤ 50 →
          f.varAvg = (⟨495, 0, 0, 495, 1, 100, 0⟩ : State).varAvg ∧
          f.varCnt = (⟨495, 0, 0, 495, 1, 100, 0⟩ : State).varCnt) ∧
        (sub32 700 (⟨495, 0, 0, 495, 1, 100, 0⟩ : State).upStartTime > 50 →
          f.varCnt = ((⟨495, 0, 0, 495, 1, 100, 0⟩ : State).varCnt + 1) % 2 ^ 32 ∧
          f.varAvg = ((⟨495, 0, 0, 495, 1, 100, 0⟩ : State).varAvg +
            1000000 / sub32 700 (⟨495, 0, 0, 495, 1, 100, 0⟩ : State).upStartTime) %
              2 ^ 32)) :=
  ⟨by decide, by decide, by decide, by decide, by decide,
    polarity_mirror defaultConfig ⟨495, 0, 0, 495, 1, 100, 0⟩ 520 700 (by decide)
      (by decide) (by decide)⟩

/-- C17: from the zeroed state, after fewer than `2^32` runs of the interrupt
and no `getFreq`, the interrupt has returned each time and
`ampCnt ≥ varCnt + (1 if a half-cycle is open, else 0)`; in particular
`ampCnt ≥ varCnt`: every recorded half-cycle has its amplitude sample. -/
theorem window_amplitude_bound (c : Config) (xs : List (Nat × Nat))
    (hlen : xs.length < 2 ^ 32) :
    ∃ s, feed c State.init xs = .ok s ∧
      s.ampCnt ≥ s.varCnt + (if s.upStartTime ≠ 0 then 1 else 0) ∧
      s.ampCnt ≥ s.varCnt := by
  obtain ⟨s, h, -, hinv⟩ := feed_window_bound c xs State.init 0 (by decide)
    (by omega) (by decide)
  refine ⟨s, h, ?_, ?_⟩
  · unfold openCount at hinv
    by_cases h0 : s.upStartTime = 0
    · rw [if_pos h0] at hinv; simp [h0]; omega
    · rw [if_neg h0] at hinv; simp [h0]; omega
  · omega

theorem window_amplitude_bound_witness :
    [(520, 100), (530, 126), (495, 600), (520, 1100)].length < 2 ^ 32 ∧
    ∃ s, feed defaultConfig State.init [(520, 100), (530, 126), (495, 600), (520, 1100)] =
        .ok s ∧
      s.ampCnt ≥ s.varCnt + (if s.upStartTime ≠ 0 then 1 else 0) ∧
      s.ampCnt ≥ s.varCnt :=
  ⟨by decide, window_amplitude_bound defaultConfig
    [(520, 100), (530, 126), (495, 600), (520, 1100)] (by decide)⟩

/-- C18: a half-cycle opened at the 32-bit clock value `start ≠ 0` and closed
after `e` microseconds, `e < 2^32`, at the clock value `(start + e) mod 2^32`.
The duration the interrupt computes, `(now - upStartTime) mod 2^32`, is `e`
whether or not the counter wrapped in between; so the closing invocation
resets the Edge State, records nothing when `e ≤ 50`, and when `e > 50` adds
1 to the count and `1000000 / e` to the sum (`uint32_t` additions). -/
theorem clock_wrap_duration (c : Config) (s : State) (sample start e : Nat)
    (hstart : s.upStartTime = start) (hnz : start ≠ 0) (hs32 : start < 2 ^ 32)
    (he : e < 2 ^ 32) (hs : sample < 65536) (hcl : closesOn c sample) :
    sub32 ((start + e) % 2 ^ 32) s.upStartTime = e ∧
    ∃ s1, ISR c s sample ((start + e) % 2 ^ 32) = .ok s1 ∧ s1.upStartTime = 0 ∧
      (e ≤ 50 → s1.varAvg = s.varAvg ∧ s1.varCnt = s.varCnt) ∧
      (e > 50 → s1.varCnt = (s.varCnt + 1) % 2 ^ 32 ∧
        s1.varAvg = (s.varAvg + 1000000 / e) % 2 ^ 32) := by
  have hx : sample % 65536 = sample := Nat.mod_eq_of_lt hs
  have hd : sub32 ((start + e) % 2 ^ 32) s.upStartTime = e := by
    rw [hstart]; exact sub32_wrap start e hs32 he
  have h0 : s.upStartTime ≠ 0 := by rw [hstart]; exact hnz
  obtain ⟨s1, h1, -, -, hu, hcnt, havg, -, -⟩ :=
    ISR_spec c s sample ((start + e) % 2 ^ 32)
  rw [hx] at hu
  rw [if_neg h0, if_pos hcl] at hu
  rw [hd] at havg
  refine ⟨hd, s1, h1, hu, ?_, ?_⟩
  · intro hle
    have hrec : records c s sample ((start + e) % 2 ^ 32) = false := by
      unfold records; rw [hd]; simp [hle]
    simp only [hrec, Bool.false_eq_true, if_false] at hcnt havg
    exact ⟨havg, hcnt⟩
  · intro hgt
    have hrec : records c s sample ((start + e) % 2 ^ 32) = true := by
      unfold records; rw [hd, hx]
      simp only [decide_eq_true_eq]
      exact ⟨Nat.pos_of_ne_zero h0, hcl, hgt⟩
    simp only [hrec, if_true] at hcnt havg
    exact ⟨hcnt, havg⟩

theorem clock_wrap_duration_witness :
    (⟨520, 0, 0, 520, 1, 4294967000, 0⟩ : State).upStartTime = 4294967000 ∧
    4294967000 ≠ 0 ∧ 4294967000 < 2 ^ 32 ∧ 500 < 2 ^ 32 ∧ 495 < 65536 ∧
    closesOn defaultConfig 495 ∧ (4294967000 + 500) % 2 ^ 32 = 204 ∧
    sub32 ((4294967000 + 500) % 2 ^ 32)
      (⟨520, 0, 0, 520, 1, 4294967000, 0⟩ : State).upStartTime = 500 ∧
    ∃ s1, ISR defaultConfig ⟨520, 0, 0, 520, 1, 4294967000, 0⟩ 495
        ((4294967000 + 500) % 2 ^ 32) = .ok s1 ∧ s1.upStartTime = 0 ∧
      (500 ≤ 50 → s1.varAvg = (⟨520, 0, 0, 520, 1, 4294967000, 0⟩ : State).varAvg ∧
        s1.varCnt = (⟨520, 0, 0, 520, 1, 4294967000, 0⟩ : State).varCnt) ∧
      (500 > 50 →
        s1.varCnt = ((⟨520, 0, 0, 520, 1, 4294967000, 0⟩ : State).varCnt + 1) % 2 ^ 32 ∧
        s1.varAvg =
          ((⟨520, 0, 0, 520, 1, 4294967000, 0⟩ : State).varAvg + 1000000 / 500) % 2 ^ 32) :=
  ⟨by decide, by decide, by decide, by decide, by decide, by decide, by decide,
    clock_wrap_duration defaultConfig ⟨520, 0, 0, 520, 1, 4294967000, 0⟩ 495 4294967000 500
      (by decide) (by decide) (by decide) (by decide) (by decide) (by decide)⟩

/-- C19, as amended. Every term the interrupt adds to the frequency sum is
`1000000 / duration` with `duration > 50`; it is at most 19607, and 0 exactly
when `duration > 1000000`; an invocation that records nothing leaves the sum
unchanged. And for every window (a run of the interrupt from an empty
Frequency Accumulator) in which neither the sum of these terms nor their
number reaches `2^32`, a `getFreq` that returns gives at most 9803. -/
theorem frequency_ceiling (c : Config) (s0 : State) (xs : List (Nat × Nat))
    (hempty : s0.varAvg = 0 ∧ s0.varCnt = 0)
    (hsum : reciprocalSum (durations c s0 xs) < 2 ^ 32)
    (hcnt : (durations c s0 xs).length < 2 ^ 32) :
    (∀ s x t, records c s x t = true →
      ∃ s1, ISR c s x t = .ok s1 ∧ 50 < sub32 t s.upStartTime ∧
        s1.varAvg = (s.varAvg + 1000000 / sub32 t s.upStartTime) % 2 ^ 32 ∧
        1000000 / sub32 t s.upStartTime ≤ 19607 ∧
        (1000000 / sub32 t s.upStartTime = 0 ↔ sub32 t s.upStartTime > 1000000)) ∧
    (∀ s x t, records c s x t = false →
      ∃ s1, ISR c s x t = .ok s1 ∧ s1.varAvg = s.varAvg) ∧
    ∃ s, feed c s0 xs = .ok s ∧ ∀ d, getFreq s = .ok d → d.avg ≤ 9803 := by
  refine ⟨?_, ?_, ?_⟩
  · intro s x t hr
    obtain ⟨s1, h1, -, -, -, -, havg, -, -⟩ := ISR_spec c s x t
    simp only [hr, if_true] at havg
    have hgt : sub32 t s.upStartTime > 50 := by
      unfold records at hr
      simp only [decide_eq_true_eq] at hr
      exact hr.2.2
    exact ⟨s1, h1, hgt, havg, reciprocal_bounds _ hgt⟩
  · intro s x t hr
    obtain ⟨s1, h1, -, -, -, -, havg, -, -⟩ := ISR_spec c s x t
    simp only [hr, Bool.false_eq_true, if_false] at havg
    exact ⟨s1, h1, havg⟩
  · obtain ⟨s, hfeed, hvc, hva, hds⟩ := feed_durations c xs s0
      (by rw [hempty.1]; norm_num) (by rw [hempty.2]; norm_num)
    rw [hempty.2, Nat.zero_add, Nat.mod_eq_of_lt hcnt] at hvc
    rw [hempty.1, Nat.zero_add, Nat.mod_eq_of_lt hsum] at hva
    refine ⟨s, hfeed, ?_⟩
    intro d hd
    have hle : s.varAvg ≤ 19607 * s.varCnt := by
      rw [hva, hvc]
      exact reciprocalSum_le _ (fun e he => (hds e he).1)
    have hv : s.varCnt ≠ 0 := by
      intro h0
      simp [getFreq, h0] at hd
    have ha : s.ampCnt ≠ 0 := by
      intro h0
      simp [getFreq, hv, h0] at hd
    rw [getFreq_ok s hv ha] at hd
    simp only [Except.ok.injEq] at hd
    rw [← hd]
    show s.varAvg / s.varCnt / 2 ≤ 9803
    have h1 : s.varAvg / s.varCnt ≤ 19607 :=
      Nat.div_le_of_le_mul (by rw [Nat.mul_comm]; exact hle)
    omega

theorem frequency_ceiling_witness :
    ((⟨0, 0, 0, 0, 0, 0, 0⟩ : State).varAvg = 0 ∧
      (⟨0, 0, 0, 0, 0, 0, 0⟩ : State).varCnt = 0) ∧
    reciprocalSum (durations defaultConfig ⟨0, 0, 0, 0, 0, 0, 0⟩
      [(520, 100), (495, 151), (520, 200), (495, 251)]) < 2 ^ 32 ∧
    (durations defaultConfig ⟨0, 0, 0, 0, 0, 0, 0⟩
      [(520, 100), (495, 151), (520, 200), (495, 251)]).length < 2 ^ 32 ∧
    feed defaultConfig ⟨0, 0, 0, 0, 0, 0, 0⟩
      [(520, 100), (495, 151), (520, 200), (495, 251)] =
        .ok ⟨495, 39214, 2, 1040, 2, 0, 0⟩ ∧
    getFreq ⟨495, 39214, 2, 1040, 2, 0, 0⟩ = .ok ⟨9803, 520, 2, ⟨495, 0, 0, 0, 0, 0, 0⟩⟩ ∧
    ∃ s, feed defaultConfig ⟨0, 0, 0, 0, 0, 0, 0⟩
        [(520, 100), (495, 151), (520, 200), (495, 251)] = .ok s ∧
      ∀ d, getFreq s = .ok d → d.avg ≤ 9803 :=
  ⟨by decide, by decide, by decide, by decide, by decide,
    (frequency_ceiling defaultConfig ⟨0, 0, 0, 0, 0, 0, 0⟩
      [(520, 100), (495, 151), (520, 200), (495, 251)] (by decide) (by decide)
      (by decide)).2.2⟩

/-- C19 as stated fails when the 32-bit count wraps while the sum does not:
219052 half-cycles of 51 microseconds (19607 each, 4294952564 in all, below
`2^32`) followed by 4294748245 half-cycles of 1000001 microseconds (0 each)
are `2^32 + 1` recorded half-cycles. `varCnt` is then 1 and `getFreq` returns
`4294952564 / 1 / 2 = 2147476282`. -/
theorem frequency_ceiling_count_wraps :
    durations defaultConfig State.init
        (squareWave (List.replicate 219052 (1000, 1051) ++
          List.replicate 4294748245 (1000, 1001001))) =
      List.replicate 219052 51 ++ List.replicate 4294748245 1000001 ∧
    reciprocalSum (List.replicate 219052 51 ++ List.replicate 4294748245 1000001) =
      4294952564 ∧
    4294952564 < 2 ^ 32 ∧
    ∃ s d, feed defaultConfig State.init
        (squareWave (List.replicate 219052 (1000, 1051) ++
          List.replicate 4294748245 (1000, 1001001))) = .ok s ∧
      s.varAvg = 4294952564 ∧ s.varCnt = 1 ∧ getFreq s = .ok d ∧ d.avg = 2147476282 := by
  have hts : ∀ p ∈ List.replicate 219052 ((1000, 1051) : Nat × Nat) ++
      List.replicate 4294748245 ((1000, 1001001) : Nat × Nat),
      p.1 % 2 ^ 32 ≠ 0 ∧ sub32 p.2 p.1 > 50 := by
    intro p hp
    rcases List.mem_append.mp hp with h | h
    · rw [List.eq_of_mem_replicate h]; decide
    · rw [List.eq_of_mem_replicate h]; decide
  have hd1 : sub32 ((1000, 1051) : Nat × Nat).2 ((1000, 1051) : Nat × Nat).1 = 51 := by
    decide
  have hd2 : sub32 ((1000, 1001001) : Nat × Nat).2 ((1000, 1001001) : Nat × Nat).1 =
      1000001 := by decide
  have hmap : (List.replicate 219052 ((1000, 1051) : Nat × Nat) ++
      List.replicate 4294748245 ((1000, 1001001) : Nat × Nat)).map
        (fun p => sub32 p.2 p.1) =
      List.replicate 219052 51 ++ List.replicate 4294748245 1000001 := by
    rw [List.map_append, List.map_replicate, List.map_replicate, hd1, hd2]
  have hsum : reciprocalSum
      (List.replicate 219052 51 ++ List.replicate 4294748245 1000001) = 4294952564 := by
    rw [reciprocalSum_append, reciprocalSum_replicate, reciprocalSum_replicate]
  have hlen : (List.replicate 219052 ((1000, 1051) : Nat × Nat) ++
      List.replicate 4294748245 ((1000, 1001001) : Nat × Nat)).length = 4294967297 := by
    rw [List.length_append, List.length_replicate, List.length_replicate]
  have hlen2 : (List.replicate 219052 51 ++
      List.replicate 4294748245 1000001).length = 4294967297 := by
    rw [List.length_append, List.length_replicate, List.length_replicate]
  obtain ⟨s, hfeed, -, hac, -, hdur⟩ := feed_squareWave _ State.init rfl (by decide)
    (by decide) hts
  obtain ⟨s', hfeed', hvc, hva, -⟩ := feed_durations defaultConfig
    (squareWave (List.replicate 219052 (1000, 1051) ++
      List.replicate 4294748245 (1000, 1001001))) State.init (by decide) (by decide)
  rw [hfeed] at hfeed'
  simp only [Except.ok.injEq] at hfeed'
  subst hfeed'
  rw [hmap] at hdur
  rw [hdur, hlen2] at hvc
  rw [hdur, hsum] at hva
  rw [hlen] at hac
  have e1 : s.varCnt = 1 := by rw [hvc]; rfl
  have e2 : s.varAvg = 4294952564 := by rw [hva]; rfl
  have e3 : s.ampCnt = 1 := by rw [hac]; rfl
  refine ⟨hdur, hsum, by decide, s, _, hfeed, e2, e1,
    getFreq_ok s (by rw [e1]; decide) (by rw [e3]; decide), ?_⟩
  show s.varAvg / s.varCnt / 2 = 2147476282
  rw [e1, e2]

end AnalogFrequency
